import Mathlib

set_option maxHeartbeats 1000000

/-!
Verification of the elsapy profile module (src/elsapy/elsprofile.py).

The module is embedded shallowly: JSON payloads become an inductive `Json`
type (numeric literals are modelled as integers; the counters the module
converts are integer-valued), Python exceptions become an explicit `PyErr`
result, the HTTP client collaborator becomes a function from URLs to
`Except Unit Json` (the error standing for requests.HTTPError /
requests.RequestException), and the file system becomes an association
list from file names to contents.  Each operation returns its Python
result (or the escaping exception) together with the post-state, so that
in-place mutation and partially-completed updates are observable.
-/

/-- JSON values as exchanged with api.elsevier.com.  Objects keep their
fields in insertion order, mirroring Python dictionaries. -/
inductive Json where
  | null : Json
  | bool (b : Bool) : Json
  | num (n : Int) : Json
  | str (s : String) : Json
  | arr (elems : List Json) : Json
  | obj (fields : List (String × Json)) : Json

/-- Python exceptions that the module can raise or let escape. -/
inductive PyErr where
  | valueError (msg : String)
  | typeError (msg : String)
  | keyError (msg : String)
  | indexError (msg : String)
  | attributeError (msg : String)
deriving DecidableEq

/-- Python truthiness of a JSON-like value (`if x:`). -/
def Json.truthy : Json → Bool
  | .null => false
  | .bool b => b
  | .num n => n != 0
  | .str s => s != ""
  | .arr xs => !xs.isEmpty
  | .obj kvs => !kvs.isEmpty

/-- First value bound to a key in an association list (Python dicts have
unique keys, so first-match lookup is exact). -/
def lookupAssoc : List (String × Json) → String → Option Json
  | [], _ => none
  | (k1, v1) :: rest, k => if k1 = k then some v1 else lookupAssoc rest k

/-- Update a key in an association list in place, preserving insertion
order, appending when the key is new (Python dict item assignment). -/
def setAssoc : List (String × Json) → String → Json → List (String × Json)
  | [], k, v => [(k, v)]
  | (k1, v1) :: rest, k, v =>
      if k1 = k then (k, v) :: rest else (k1, v1) :: setAssoc rest k v

/-- Field lookup on a JSON object, `none` when the value is not an object
or lacks the key.  Used to state properties, not by the operations. -/
def Json.jGet : Json → String → Option Json
  | .obj kvs, k => lookupAssoc kvs k
  | _, _ => none

/-- Lookup of a key nested under the coredata field, for stating the
metrics properties. -/
def Json.jGetCore (j : Json) (k : String) : Option Json :=
  match j.jGet "coredata" with
  | some cd => cd.jGet k
  | none => none

/-- Python `d.get(key, default)`: total on dictionaries, an
AttributeError on anything else. -/
def pyDictGet (j : Json) (k : String) (dflt : Json) : Except PyErr Json :=
  match j with
  | .obj kvs => .ok ((lookupAssoc kvs k).getD dflt)
  | _ => .error (.attributeError "object has no attribute get")

/-- Python `d[key]` subscription with a string key: KeyError when the key
is missing, TypeError when the value is not a dictionary. -/
def pySub (j : Json) (k : String) : Except PyErr Json :=
  match j with
  | .obj kvs =>
      match lookupAssoc kvs k with
      | some v => .ok v
      | none => .error (.keyError k)
  | _ => .error (.typeError "object is not subscriptable by string")

/-- Python `d[key] = v` item assignment: TypeError when the receiver does
not support item assignment. -/
def pySetItem (j : Json) (k : String) (v : Json) : Except PyErr Json :=
  match j with
  | .obj kvs => .ok (.obj (setAssoc kvs k v))
  | _ => .error (.typeError "object does not support item assignment")

/-- Python `x[i]` subscription with a non-negative integer index. -/
def pyIndex (j : Json) (i : Nat) : Except PyErr Json :=
  match j with
  | .arr xs =>
      match xs[i]? with
      | some v => .ok v
      | none => .error (.indexError "list index out of range")
  | .str s =>
      match s.data[i]? with
      | some c => .ok (.str (String.mk [c]))
      | none => .error (.indexError "string index out of range")
  | .obj _ => .error (.keyError "integer key")
  | _ => .error (.typeError "object is not subscriptable")

/-- Python `len(x)`: TypeError on values without a length. -/
def pyLen (j : Json) : Except PyErr Nat :=
  match j with
  | .arr xs => .ok xs.length
  | .obj kvs => .ok kvs.length
  | .str s => .ok s.data.length
  | _ => .error (.typeError "object has no len")

/-- Whitespace characters recognised by Python int() and the JSON format. -/
def isWsChar (c : Char) : Bool :=
  c == ' ' || c == '\t' || c == '\n' || c == '\r'

/-- Digit string to value, most significant digit first. -/
def digitsVal (ds : List Char) : Nat :=
  ds.foldl (fun a c => 10 * a + (c.toNat - 48)) 0

/-- Python `int(s)` on a string: optional surrounding whitespace, optional
sign, then a non-empty digit run. -/
def parsePyInt (s : String) : Option Int :=
  let cs := (s.data.dropWhile isWsChar).reverse.dropWhile isWsChar |>.reverse
  match cs with
  | '-' :: ds => if ds ≠ [] ∧ ds.all Char.isDigit then some (-(digitsVal ds : Int)) else none
  | '+' :: ds => if ds ≠ [] ∧ ds.all Char.isDigit then some (digitsVal ds : Int) else none
  | ds => if ds ≠ [] ∧ ds.all Char.isDigit then some (digitsVal ds : Int) else none

/-- Python `int(x)` conversion as used by read_metrics: exact on numbers
and booleans, string parsing on strings, TypeError otherwise. -/
def pyInt (j : Json) : Except PyErr Int :=
  match j with
  | .num n => .ok n
  | .bool b => .ok (if b then 1 else 0)
  | .str s =>
      match parsePyInt s with
      | some n => .ok n
      | none => .error (.valueError "invalid literal for int with base 10")
  | _ => .error (.typeError "int argument must be a string or a number")

/-- A constructor ID argument: the spec admits a numeric or string ID;
the Python default is the empty string. -/
inductive PyId where
  | str (s : String)
  | num (n : Int)
deriving DecidableEq

/-- Python truthiness of an ID argument. -/
def PyId.truthy : PyId → Bool
  | .str s => s != ""
  | .num n => n != 0

/-- Python `str(id)` for an ID argument. -/
def PyId.pyStr : PyId → String
  | .str s => s
  | .num n => toString n

/-- Decimal digit character, used only for arguments below ten. -/
def digitChar10 : Nat → Char
  | 0 => '0'
  | 1 => '1'
  | 2 => '2'
  | 3 => '3'
  | 4 => '4'
  | 5 => '5'
  | 6 => '6'
  | 7 => '7'
  | 8 => '8'
  | _ => '9'

/-- Decimal rendering of a natural number, most significant digit first. -/
def natChars (n : Nat) : List Char :=
  if _h : n < 10 then [digitChar10 n]
  else natChars (n / 10) ++ [digitChar10 (n % 10)]
decreasing_by exact Nat.div_lt_self (by omega) (by omega)

/-- Decimal rendering of an integer. -/
def intChars (n : Int) : List Char :=
  if n < 0 then '-' :: natChars n.natAbs else natChars n.toNat

/-- Lowercase hexadecimal digit character, used only for arguments below
sixteen. -/
def hexDigitChar : Nat → Char
  | 0 => '0'
  | 1 => '1'
  | 2 => '2'
  | 3 => '3'
  | 4 => '4'
  | 5 => '5'
  | 6 => '6'
  | 7 => '7'
  | 8 => '8'
  | 9 => '9'
  | 10 => 'a'
  | 11 => 'b'
  | 12 => 'c'
  | 13 => 'd'
  | 14 => 'e'
  | _ => 'f'

/-- JSON string escaping of one character, as json.dumps performs it:
quotes and backslashes get a backslash escape and control characters a
four-digit unicode escape; every other character is emitted literally
(the ensure-ascii re-encoding of characters above 127 is not modelled,
it does not change the parsed value). -/
def escChar1 (c : Char) : List Char :=
  if c = '"' then ['\\', '"']
  else if c = '\\' then ['\\', '\\']
  else if c.toNat < 32 then
    ['\\', 'u', '0', '0', hexDigitChar (c.toNat / 16), hexDigitChar (c.toNat % 16)]
  else [c]

/-- JSON string escaping of a character list. -/
def escL (l : List Char) : List Char :=
  l.foldr (fun c acc => escChar1 c ++ acc) []

mutual

/-- Model of json.dumps: the compact character rendering of a JSON value,
with the default python separators (a comma and a space between items, a
colon and a space after keys). -/
def dumpsL : Json → List Char
  | .null => "null".data
  | .bool b => if b then "true".data else "false".data
  | .num n => intChars n
  | .str s => '"' :: escL s.data ++ ['"']
  | .arr [] => ['[', ']']
  | .arr (x :: xs) => '[' :: dumpsL x ++ arrTailD xs ++ [']']
  | .obj [] => ['\x7b', '\x7d']
  | .obj ((k, v) :: kvs) => '\x7b' :: kvD k v ++ objTailD kvs ++ ['\x7d']

/-- Rendering of the array elements after the first one. -/
def arrTailD : List Json → List Char
  | [] => []
  | x :: xs => ',' :: ' ' :: dumpsL x ++ arrTailD xs

/-- Rendering of the object fields after the first one. -/
def objTailD : List (String × Json) → List Char
  | [] => []
  | (k, v) :: kvs => ',' :: ' ' :: kvD k v ++ objTailD kvs

/-- Rendering of one key-value pair of an object. -/
def kvD (k : String) (v : Json) : List Char :=
  '"' :: escL k.data ++ '"' :: ':' :: ' ' :: dumpsL v

end

/-- Model of json.dumps returning a string. -/
def pyDumps (j : Json) : String :=
  String.mk (dumpsL j)

/-- Drop leading JSON whitespace. -/
def skipWs : List Char → List Char
  | [] => []
  | c :: cs => if isWsChar c then skipWs cs else c :: cs

/-- Value of one hexadecimal digit character. -/
def hexv (c : Char) : Option Nat :=
  if '0' ≤ c ∧ c ≤ '9' then some (c.toNat - 48)
  else if 'a' ≤ c ∧ c ≤ 'f' then some (c.toNat - 87)
  else if 'A' ≤ c ∧ c ≤ 'F' then some (c.toNat - 55)
  else none

/-- Value of a four-digit hexadecimal escape. -/
def hexVal4 (a b c d : Char) : Option Nat :=
  match hexv a, hexv b, hexv c, hexv d with
  | some x, some y, some z, some w => some (4096 * x + 256 * y + 16 * z + w)
  | _, _, _, _ => none

/-- Decoding of a single-character escape sequence. -/
def escDecode (c : Char) : Option Char :=
  if c = '"' then some '"'
  else if c = '\\' then some '\\'
  else if c = '/' then some '/'
  else if c = 'n' then some '\n'
  else if c = 't' then some '\t'
  else if c = 'r' then some '\r'
  else if c = 'b' then some (Char.ofNat 8)
  else if c = 'f' then some (Char.ofNat 12)
  else none

/-- Parse the body of a JSON string after the opening quote, returning
the decoded characters and the input after the closing quote.  The fuel
only needs to exceed the number of decoding steps. -/
def pStr : Nat → List Char → Option (List Char × List Char)
  | 0, _ => none
  | _ + 1, [] => none
  | fuel + 1, c :: rest =>
    if c = '"' then some ([], rest)
    else if c = '\\' then
      match rest with
      | [] => none
      | e :: rest2 =>
        if e = 'u' then
          match rest2 with
          | h1 :: h2 :: h3 :: h4 :: rest3 =>
            match hexVal4 h1 h2 h3 h4 with
            | some n =>
              match pStr fuel rest3 with
              | some (cs, r) => some (Char.ofNat n :: cs, r)
              | none => none
            | none => none
          | _ => none
        else
          match escDecode e with
          | some d =>
            match pStr fuel rest2 with
            | some (cs, r) => some (d :: cs, r)
            | none => none
          | none => none
    else
      match pStr fuel rest with
      | some (cs, r) => some (c :: cs, r)
      | none => none

/-- Match a literal keyword tail. -/
def dropLit : List Char → List Char → Option (List Char)
  | [], cs => some cs
  | _ :: _, [] => none
  | l :: ls, c :: cs => if c = l then dropLit ls cs else none

/-- Split a leading run of decimal digits from the input. -/
def takeDigits : List Char → List Char × List Char
  | [] => ([], [])
  | c :: cs =>
    if c.isDigit then
      let p := takeDigits cs
      (c :: p.1, p.2)
    else ([], c :: cs)

mutual

/-- Recursive-descent JSON value parser (numbers restricted to integers,
matching the `Json` model).  Returns the value and the unread input. -/
def pValue : Nat → List Char → Option (Json × List Char)
  | 0, _ => none
  | fuel + 1, input =>
    match skipWs input with
    | [] => none
    | c :: rest =>
      if c = '"' then
        match pStr rest.length rest with
        | some (cs, r) => some (.str (String.mk cs), r)
        | none => none
      else if c = '[' then
        match skipWs rest with
        | [] => none
        | d :: r2 =>
          if d = ']' then some (.arr [], r2)
          else
            match pValue fuel (d :: r2) with
            | some (v, r3) =>
              match pArrRest fuel r3 with
              | some (vs, r4) => some (.arr (v :: vs), r4)
              | none => none
            | none => none
      else if c = '\x7b' then
        match skipWs rest with
        | [] => none
        | d :: r2 =>
          if d = '\x7d' then some (.obj [], r2)
          else if d = '"' then
            match pStr r2.length r2 with
            | some (kcs, r3) =>
              match skipWs r3 with
              | [] => none
              | e :: r4 =>
                if e = ':' then
                  match pValue fuel r4 with
                  | some (v, r5) =>
                    match pObjRest fuel r5 with
                    | some (kvs, r6) => some (.obj ((String.mk kcs, v) :: kvs), r6)
                    | none => none
                  | none => none
                else none
            | none => none
          else none
      else if c = 't' then
        match dropLit ['r', 'u', 'e'] rest with
        | some r => some (.bool true, r)
        | none => none
      else if c = 'f' then
        match dropLit ['a', 'l', 's', 'e'] rest with
        | some r => some (.bool false, r)
        | none => none
      else if c = 'n' then
        match dropLit ['u', 'l', 'l'] rest with
        | some r => some (.null, r)
        | none => none
      else if c = '-' then
        let p := takeDigits rest
        if p.1 = [] then none else some (.num (-(digitsVal p.1 : Int)), p.2)
      else if c.isDigit then
        let p := takeDigits (c :: rest)
        some (.num (digitsVal p.1), p.2)
      else none

/-- Parse the remainder of a JSON array after a parsed element: either a
closing bracket or a comma followed by more elements. -/
def pArrRest : Nat → List Char → Option (List Json × List Char)
  | 0, _ => none
  | fuel + 1, input =>
    match skipWs input with
    | [] => none
    | c :: rest =>
      if c = ']' then some ([], rest)
      else if c = ',' then
        match pValue fuel rest with
        | some (v, r2) =>
          match pArrRest fuel r2 with
          | some (vs, r3) => some (v :: vs, r3)
          | none => none
        | none => none
      else none

/-- Parse the remainder of a JSON object after a parsed field. -/
def pObjRest : Nat → List Char → Option (List (String × Json) × List Char)
  | 0, _ => none
  | fuel + 1, input =>
    match skipWs input with
    | [] => none
    | c :: rest =>
      if c = '\x7d' then some ([], rest)
      else if c = ',' then
        match skipWs rest with
        | [] => none
        | d :: r2 =>
          if d = '"' then
            match pStr r2.length r2 with
            | some (kcs, r3) =>
              match skipWs r3 with
              | [] => none
              | e :: r4 =>
                if e = ':' then
                  match pValue fuel r4 with
                  | some (v, r5) =>
                    match pObjRest fuel r5 with
                    | some (kvs, r6) => some ((String.mk kcs, v) :: kvs, r6)
                    | none => none
                  | none => none
                else none
            | none => none
          else none
      else none

end

/-- Parse a complete JSON document: one value with only whitespace after
it. -/
def jsonParse (s : String) : Option Json :=
  match pValue (s.data.length + 1) s.data with
  | some (v, rest) => if skipWs rest = [] then some v else none
  | none => none

mutual

/-- Nesting measure of a JSON value, bounding the parser fuel it needs. -/
def jsize : Json → Nat
  | .null => 1
  | .bool _ => 1
  | .num _ => 1
  | .str _ => 1
  | .arr xs => 1 + jsizeL xs
  | .obj kvs => 1 + jsizeO kvs

/-- Nesting measure of an array tail. -/
def jsizeL : List Json → Nat
  | [] => 0
  | x :: xs => 1 + jsize x + jsizeL xs

/-- Nesting measure of an object tail. -/
def jsizeO : List (String × Json) → Nat
  | [] => 0
  | (_, v) :: kvs => 1 + jsize v + jsizeO kvs

end

/-- Whether the input does not begin with a decimal digit, so that a
number rendered in front of it keeps its boundary. -/
def headNotDigit : List Char → Prop
  | [] => True
  | c :: _ => c.isDigit = false

/-- The HTTP client collaborator: exec_request maps a URL to a parsed
JSON payload, or to a transport error (requests.HTTPError or
requests.RequestException, which the operations catch together). -/
abbrev Client := String → Except Unit Json

/-- Observable state of a profile entity together with the file system.
The uri, client and data fields live in the entity base ElsEntity, whose
file is not part of this source tree; they are modelled from the spec:
uri is the immutable identifier, client the optional bound API client,
and data the JSON payload, replaced wholesale by a successful generic
read (an absent payload is modelled as null, matching the falsiness
checks the module performs on it).  doc_list is the document cache of
ElsProfile (None before the first fetch) and docsframe the derived
tabular view, modelled as the raw value it is rebuilt from.  fs models
the data directory written by write_docs. -/
structure ProfileState where
  uri : String
  client : Option Client
  data : Json
  doc_list : Option Json
  docsframe : Option Json
  fs : List (String × String)

/-- Write a file: the new content shadows any earlier file of that name. -/
def fsWrite (fs : List (String × String)) (name content : String) : List (String × String) :=
  (name, content) :: fs

/-- Current content of a file, if it exists. -/
def fsLookup : List (String × String) → String → Option String
  | [], _ => none
  | (n, c) :: rest, name => if n = name then some c else fsLookup rest name

/-- State produced by ElsProfile.__init__ through ElsEntity.__init__: the
URI is stored, nothing is bound or cached, and the file system starts
empty. -/
def freshProfile (uri : String) : ProfileState :=
  { uri := uri, client := none, data := .null, doc_list := none, docsframe := none, fs := [] }

/-- Python str.split with the slash separator, over the character list:
every slash separates, so leading, trailing and doubled slashes yield
empty segments, and the result is never empty. -/
def splitSlashAux : List Char → List Char → List (List Char)
  | [], acc => [acc.reverse]
  | c :: cs, acc =>
    if c = '/' then acc.reverse :: splitSlashAux cs [] else splitSlashAux cs (c :: acc)

/-- Last path segment of the URI: uri split on slashes, last element. -/
def lastSeg (uri : String) : String :=
  String.mk ((splitSlashAux uri.data []).getLastD [])

/-- The search URL built by read_docs.  The source builds it with an
http scheme (not https). -/
def searchUrl (uri : String) : String :=
  "http://api.elsevier.com/content/search/scopus?query=au-id(" ++ lastSeg uri ++ ")&view=COMPLETE"

/-- ElsProfile.read_docs (elsprofile.py lines 31-64): bind the parameter
client if given, else require a bound client; one GET to the search URL;
extract search-results.entry with empty-object and empty-list defaults;
store the list and the derived frame; True on success, False on a caught
transport error.  Errors other than transport errors escape, after any
mutations already performed.  Returns (result, state, requested URLs). -/
def ElsProfile.read_docs (s : ProfileState) (_payloadType : String) (els_client : Option Client) :
    (Except PyErr Bool) × ProfileState × List String :=
  let s0 := match els_client with
    | some c => { s with client := some c }
    | none => s
  match s0.client with
  | none =>
      (.error (.valueError "Entity object not currently bound to els_client instance."), s0, [])
  | some c =>
    let url := searchUrl s0.uri
    match c url with
    | .error _ => (.ok false, s0, [url])
    | .ok resp =>
      match pyDictGet resp "search-results" (Json.obj []) with
      | .error e => (.error e, s0, [url])
      | .ok sr =>
        match pyDictGet sr "entry" (Json.arr []) with
        | .error e => (.error e, s0, [url])
        | .ok entry =>
          let s1 := { s0 with doc_list := some entry }
          match pyLen entry with
          | .error e => (.error e, s1, [url])
          | .ok _ => (.ok true, { s1 with docsframe := some entry }, [url])

/-- UTF-8 encoding of one character as byte values. -/
def utf8Bytes (c : Char) : List Nat :=
  let n := c.toNat
  if n < 128 then [n]
  else if n < 2048 then [192 + n / 64, 128 + n % 64]
  else if n < 65536 then [224 + n / 4096, 128 + (n / 64) % 64, 128 + n % 64]
  else [240 + n / 262144, 128 + (n / 4096) % 64, 128 + (n / 64) % 64, 128 + n % 64]

/-- Uppercase hexadecimal digit character, for percent escapes. -/
def hexUpperChar : Nat → Char
  | 0 => '0'
  | 1 => '1'
  | 2 => '2'
  | 3 => '3'
  | 4 => '4'
  | 5 => '5'
  | 6 => '6'
  | 7 => '7'
  | 8 => '8'
  | 9 => '9'
  | 10 => 'A'
  | 11 => 'B'
  | 12 => 'C'
  | 13 => 'D'
  | 14 => 'E'
  | _ => 'F'

/-- Bytes urllib.parse.quote never escapes: ASCII letters, digits, and
hyphen, period, underscore, tilde. -/
def quoteSafe (n : Nat) : Bool :=
  decide ((48 ≤ n ∧ n ≤ 57) ∨ (65 ≤ n ∧ n ≤ 90) ∨ (97 ≤ n ∧ n ≤ 122) ∨
    n = 45 ∨ n = 46 ∨ n = 95 ∨ n = 126)

/-- urllib.parse.quote_plus on one UTF-8 byte. -/
def quotePlusByte (n : Nat) : List Char :=
  if quoteSafe n then [Char.ofNat n]
  else if n = 32 then ['+']
  else ['%', hexUpperChar (n / 16), hexUpperChar (n % 16)]

/-- Model of urllib.parse.quote_plus: percent-encoding of the UTF-8
bytes, keeping safe characters and turning spaces into plus signs. -/
def quote_plus (s : String) : String :=
  String.mk ((s.data.foldr (fun c acc => utf8Bytes c ++ acc) []).foldr
    (fun n acc => quotePlusByte n ++ acc) [])

/-- The file name written by write_docs. -/
def docsFileName (uri : String) : String :=
  "data/" ++ quote_plus (uri ++ "?view=documents") ++ ".json"

/-- Characters the write_docs loop appends for the elements after the
first one: a bare comma and then the dump of the element. -/
def wtail : List Json → List Char
  | [] => []
  | x :: xs => ',' :: dumpsL x ++ wtail xs

/-- The full file content write_docs produces for a non-empty element
sequence. -/
def docsContent (d : Json) (ds : List Json) : String :=
  String.mk ('[' :: dumpsL d ++ wtail ds ++ [']'])

/-- ElsProfile.write_docs (elsprofile.py lines 67-85): with a truthy
doc_list, open (and thereby create) the dump file and write the bracketed
comma-separated dumps of the elements, returning True; with a falsy or
absent doc_list, return False and touch nothing.  Subscripting a truthy
non-sequence doc_list raises after the file has been created empty; the
unreachable falsy arms inside the truthy branch return False. -/
def ElsProfile.write_docs (s : ProfileState) : (Except PyErr Bool) × ProfileState :=
  match s.doc_list with
  | none => (.ok false, s)
  | some dl =>
    if dl.truthy then
      let fname := docsFileName s.uri
      match dl with
      | .arr (d :: ds) =>
          (.ok true, { s with fs := fsWrite s.fs fname (docsContent d ds) })
      | .str t =>
          match t.data with
          | c :: cs =>
              let content :=
                docsContent (.str (String.mk [c])) (cs.map fun c2 => .str (String.mk [c2]))
              (.ok true, { s with fs := fsWrite s.fs fname content })
          | [] => (.ok false, s)
      | .obj _ => (.error (.keyError "integer key"), { s with fs := fsWrite s.fs fname "" })
      | .arr [] => (.ok false, s)
      | _ => (.error (.typeError "object is not subscriptable"),
              { s with fs := fsWrite s.fs fname "" })
    else (.ok false, s)

/-- Modelled from the spec: the generic ElsEntity.read of the entity base
(elsentity.py is not part of this source tree).  Per the spec it needs an
available client, performs one GET against the entity URI, replaces data
wholesale with the parsed payload on success returning True, and
surfaces transport errors as False. -/
def ElsEntity.read (s : ProfileState) (_payloadType : String) (els_client : Option Client) :
    (Except PyErr Bool) × ProfileState × List String :=
  let s0 := match els_client with
    | some c => { s with client := some c }
    | none => s
  match s0.client with
  | none =>
      (.error (.valueError "Entity object not currently bound to els_client instance."), s0, [])
  | some c =>
    match c s0.uri with
    | .error _ => (.ok false, s0, [s0.uri])
    | .ok resp => (.ok true, { s0 with data := resp }, [s0.uri])

/-- Payload-type tag of ElsAuthor. -/
def ElsAuthor.payload_type : String := "author-retrieval-response"

/-- Fixed URI base of ElsAuthor. -/
def ElsAuthor.uri_base : String := "https://api.elsevier.com/content/author/author_id/"

/-- ElsAuthor.__init__ (lines 96-105): branches on the python truthiness
of the uri and author_id arguments, in source order. -/
def ElsAuthor.init (uri : String) (author_id : PyId) : Except PyErr ProfileState :=
  if uri ≠ "" ∧ ¬ author_id.truthy then .ok (freshProfile uri)
  else if author_id.truthy ∧ uri = "" then
    .ok (freshProfile (ElsAuthor.uri_base ++ author_id.pyStr))
  else if uri = "" ∧ ¬ author_id.truthy then
    .error (.valueError "No URI or author ID specified")
  else .error (.valueError "Both URI and author ID specified; just need one.")

/-- ElsAuthor.read: delegates to the generic read with the author payload
type (the if-else around it is the identity on the boolean result). -/
def ElsAuthor.read (s : ProfileState) (els_client : Option Client) :
    (Except PyErr Bool) × ProfileState × List String :=
  ElsEntity.read s ElsAuthor.payload_type els_client

/-- ElsAuthor.read_docs: delegates to ElsProfile.read_docs with the
author payload type. -/
def ElsAuthor.read_docs (s : ProfileState) (els_client : Option Client) :
    (Except PyErr Bool) × ProfileState × List String :=
  ElsProfile.read_docs s ElsAuthor.payload_type els_client

/-- The query URL read_metrics builds: the entity URI with the fixed
field list appended. -/
def metricsUrl (uri : String) : String :=
  uri ++ "?field=document-count,cited-by-count,citation-count,h-index,dc:identifier"

/-- One assignment line of read_metrics into data[coredata][key]: the
getitem of coredata raises when data lacks a coredata dictionary, then
the setitem mutates it (modelled by writing the updated dictionary
back). -/
def coreAssign (dat : Json) (k : String) (v : Json) : Except PyErr Json :=
  match pySub dat "coredata" with
  | .error e => .error e
  | .ok cd =>
    match pySetItem cd k v with
    | .error e => .error e
    | .ok cd2 => pySetItem dat "coredata" cd2

/-- Right-hand side of the integer metric lines:
int of the coredata field of the response element. -/
def rhsInt (d0 : Json) (k : String) : Except PyErr Int :=
  match pySub d0 "coredata" with
  | .error e => .error e
  | .ok cd =>
    match pySub cd k with
    | .error e => .error e
    | .ok v => pyInt v

/-- The assignment block of read_metrics, threading the partially updated
data so that an escaping exception leaves the earlier assignments in
place, exactly as in-place mutation does.  Note the cited-by-count line
converts the citation-count source field, as the code does. -/
def metricsApply (d0 dat : Json) : (Except PyErr Unit) × Json :=
  match (match pySub d0 "coredata" with
         | .error e => .error e
         | .ok cd => pySub cd "dc:identifier" : Except PyErr Json) with
  | .error e => (.error e, dat)
  | .ok v1 =>
    match coreAssign dat "dc:identifier" v1 with
    | .error e => (.error e, dat)
    | .ok dat1 =>
      match rhsInt d0 "citation-count" with
      | .error e => (.error e, dat1)
      | .ok n2 =>
        match coreAssign dat1 "citation-count" (.num n2) with
        | .error e => (.error e, dat1)
        | .ok dat2 =>
          match rhsInt d0 "citation-count" with
          | .error e => (.error e, dat2)
          | .ok n3 =>
            match coreAssign dat2 "cited-by-count" (.num n3) with
            | .error e => (.error e, dat2)
            | .ok dat3 =>
              match rhsInt d0 "document-count" with
              | .error e => (.error e, dat3)
              | .ok n4 =>
                match coreAssign dat3 "document-count" (.num n4) with
                | .error e => (.error e, dat3)
                | .ok dat4 =>
                  match (match pySub d0 "h-index" with
                         | .error e => .error e
                         | .ok hv => pyInt hv : Except PyErr Int) with
                  | .error e => (.error e, dat4)
                  | .ok n5 =>
                    match pySetItem dat4 "h-index" (.num n5) with
                    | .error e => (.error e, dat4)
                    | .ok dat5 => (.ok (), dat5)

/-- ElsAuthor.read_metrics (lines 136-161): calls exec_request on the
els_client PARAMETER directly (the previously bound client is never
consulted; with no parameter the attribute access on None escapes).  One
GET to the metrics URL; a caught transport error yields False;
response-shape and conversion errors escape; the data and coredata
containers are freshly created when data is falsy, then the assignment
block runs and True is returned. -/
def ElsAuthor.read_metrics (s : ProfileState) (els_client : Option Client) :
    (Except PyErr Bool) × ProfileState × List String :=
  match els_client with
  | none => (.error (.attributeError "NoneType object has no attribute exec_request"), s, [])
  | some c =>
    let url := metricsUrl s.uri
    match c url with
    | .error _ => (.ok false, s, [url])
    | .ok resp =>
      match (match pySub resp ElsAuthor.payload_type with
             | .error e => .error e
             | .ok lst => pyIndex lst 0 : Except PyErr Json) with
      | .error e => (.error e, s, [url])
      | .ok d0 =>
        let dat0 := if s.data.truthy then s.data else Json.obj [("coredata", Json.obj [])]
        match metricsApply d0 dat0 with
        | (.error e, dat) => (.error e, { s with data := dat }, [url])
        | (.ok _, dat) => (.ok true, { s with data := dat }, [url])

/-- Payload-type tag of ElsAffil. -/
def ElsAffil.payload_type : String := "affiliation-retrieval-response"

/-- Fixed URI base of ElsAffil. -/
def ElsAffil.uri_base : String := "https://api.elsevier.com/content/affiliation/affiliation_id/"

/-- ElsAffil.__init__ (lines 177-186): same contract as the author
constructor with the affiliation messages. -/
def ElsAffil.init (uri : String) (affil_id : PyId) : Except PyErr ProfileState :=
  if uri ≠ "" ∧ ¬ affil_id.truthy then .ok (freshProfile uri)
  else if affil_id.truthy ∧ uri = "" then
    .ok (freshProfile (ElsAffil.uri_base ++ affil_id.pyStr))
  else if uri = "" ∧ ¬ affil_id.truthy then
    .error (.valueError "No URI or affiliation ID specified")
  else .error (.valueError "Both URI and affiliation ID specified; just need one.")

/-- ElsAffil.read: delegates to the generic read with the affiliation
payload type. -/
def ElsAffil.read (s : ProfileState) (els_client : Option Client) :
    (Except PyErr Bool) × ProfileState × List String :=
  ElsEntity.read s ElsAffil.payload_type els_client

/-- ElsAffil.read_docs: delegates to ElsProfile.read_docs with the
affiliation payload type. -/
def ElsAffil.read_docs (s : ProfileState) (els_client : Option Client) :
    (Except PyErr Bool) × ProfileState × List String :=
  ElsProfile.read_docs s ElsAffil.payload_type els_client

/-- One observable operation on a profile entity, for the lifecycle
invariant. -/
inductive ProfileOp where
  | opRead (payloadType : String) (c : Option Client)
  | opReadDocs (payloadType : String) (c : Option Client)
  | opReadMetrics (c : Option Client)
  | opWriteDocs

/-- Result and post-state of one operation. -/
def stepOp (s : ProfileState) (op : ProfileOp) : (Except PyErr Bool) × ProfileState :=
  match op with
  | .opRead pt c => ((ElsEntity.read s pt c).1, (ElsEntity.read s pt c).2.1)
  | .opReadDocs pt c => ((ElsProfile.read_docs s pt c).1, (ElsProfile.read_docs s pt c).2.1)
  | .opReadMetrics c => ((ElsAuthor.read_metrics s c).1, (ElsAuthor.read_metrics s c).2.1)
  | .opWriteDocs => ElsProfile.write_docs s

/-- Run a sequence of operations. -/
def runOps (s : ProfileState) : List ProfileOp → ProfileState
  | [] => s
  | op :: ops => runOps (stepOp s op).2 ops

/-- Whether an operation result is a returned True. -/
def isOkTrue : Except PyErr Bool → Bool
  | .ok true => true
  | _ => false

/-- Whether some read_docs in the sequence, run from the given state,
returns True. -/
def hasOkReadDocs (s : ProfileState) : List ProfileOp → Bool
  | [] => false
  | op :: ops =>
    (match op with
     | .opReadDocs _ _ => isOkTrue (stepOp s op).1
     | _ => false) || hasOkReadDocs (stepOp s op).2 ops

/-- Whether the cached document list is a non-empty list. -/
def nonEmptyDocList (s : ProfileState) : Bool :=
  match s.doc_list with
  | some (.arr (_ :: _)) => true
  | _ => false

/-- An exception that is neither an attribute error nor the binding
ValueError that read_docs raises for a missing client. -/
def PyErr.nonBinding (e : PyErr) : Prop :=
  (∀ m, e ≠ PyErr.attributeError m) ∧
  e ≠ PyErr.valueError "Entity object not currently bound to els_client instance."

/-- Whether an operation is a read_docs call. -/
def ProfileOp.isReadDocs : ProfileOp → Bool
  | .opReadDocs _ _ => true
  | _ => false

/-- A concrete author profile state, freshly constructed from a URI. -/
def demoState : ProfileState :=
  freshProfile "https://api.elsevier.com/content/author/author_id/7004212771"

/-- A client answering every request with a search payload whose entry
list has two documents. -/
def demoClientDocs : Client :=
  fun _ => .ok (.obj [("search-results", .obj [("entry",
    .arr [.obj [("dc:title", .str "first")], .str "second"])])])

/-- A client answering with a payload that has no search-results key. -/
def demoClientNoSR : Client :=
  fun _ => .ok (.obj [("other", .null)])

/-- A client whose requests always fail with a transport error. -/
def demoClientErr : Client :=
  fun _ => .error ()

/-- A client answering with an author metrics payload whose counts are
strings. -/
def demoClientMetrics : Client :=
  fun _ => .ok (.obj [("author-retrieval-response", .arr [.obj [
    ("coredata", .obj [
      ("dc:identifier", .str "AUTHOR_ID:7004212771"),
      ("citation-count", .str "42"),
      ("cited-by-count", .str "999"),
      ("document-count", .num 7)]),
    ("h-index", .str "5")]])])

/-- A client answering with a search payload whose entry field is a bare
number, which read_docs stores before the len call raises. -/
def demoClientBadEntry : Client :=
  fun _ => .ok (.obj [("search-results", .obj [("entry", .num 5)])])

/-- The demo state with a cached two-document list. -/
def demoStateDocs : ProfileState :=
  { demoState with doc_list := some (.arr [.obj [("x", .num 2)], .str "b"]) }

/-- The demo state with a bound metrics client. -/
def demoStateBound : ProfileState :=
  { demoState with client := some demoClientMetrics }

/-- What a successful read_metrics stores, related to the response: the
coredata counts and the h-index are the integer conversions of the
corresponding fields of the first payload element, and cited-by-count is
the integer conversion of the citation-count source field. -/
def metricsStoresConversions (s : ProfileState) (c : Client) (s2 : ProfileState) : Prop :=
  ∃ resp lst d0 cd0 idv ccv cc dcv dc hv hi,
    c (metricsUrl s.uri) = .ok resp ∧
    pySub resp ElsAuthor.payload_type = .ok lst ∧
    pyIndex lst 0 = .ok d0 ∧
    d0.jGet "coredata" = some cd0 ∧
    cd0.jGet "dc:identifier" = some idv ∧
    s2.data.jGetCore "dc:identifier" = some idv ∧
    cd0.jGet "citation-count" = some ccv ∧ pyInt ccv = .ok cc ∧
    s2.data.jGetCore "citation-count" = some (.num cc) ∧
    cd0.jGet "document-count" = some dcv ∧ pyInt dcv = .ok dc ∧
    s2.data.jGetCore "document-count" = some (.num dc) ∧
    d0.jGet "h-index" = some hv ∧ pyInt hv = .ok hi ∧
    s2.data.jGet "h-index" = some (.num hi) ∧
    s2.data.jGetCore "cited-by-count" = some (.num cc)

/-- The frame of a successful read_metrics: every state component other
than data is untouched, the data and coredata containers exist
afterwards, exactly the five metric fields are written, and every other
field of data and of its coredata is unchanged. -/
def metricsFrame (s s2 : ProfileState) : Prop :=
  s2.uri = s.uri ∧ s2.client = s.client ∧ s2.doc_list = s.doc_list ∧
  s2.docsframe = s.docsframe ∧ s2.fs = s.fs ∧
  (∃ cdl, s2.data.jGet "coredata" = some (.obj cdl)) ∧
  (∃ v, s2.data.jGetCore "dc:identifier" = some v) ∧
  (∃ n : Int, s2.data.jGetCore "citation-count" = some (.num n)) ∧
  (∃ n : Int, s2.data.jGetCore "cited-by-count" = some (.num n)) ∧
  (∃ n : Int, s2.data.jGetCore "document-count" = some (.num n)) ∧
  (∃ n : Int, s2.data.jGet "h-index" = some (.num n)) ∧
  (∀ t, t ≠ "coredata" → t ≠ "h-index" → s2.data.jGet t = s.data.jGet t) ∧
  (∀ k, k ≠ "dc:identifier" → k ≠ "citation-count" → k ≠ "cited-by-count" →
    k ≠ "document-count" → s2.data.jGetCore k = s.data.jGetCore k)

theorem lookupAssoc_setAssoc_same (l : List (String × Json)) (k : String) (v : Json) :
    lookupAssoc (setAssoc l k v) k = some v := by
  induction l with
  | nil => simp [setAssoc, lookupAssoc]
  | cons kv rest ih =>
    obtain ⟨k1, v1⟩ := kv
    by_cases h : k1 = k
    · simp [setAssoc, h, lookupAssoc]
    · simp [setAssoc, h, lookupAssoc, ih]

theorem lookupAssoc_setAssoc_ne (l : List (String × Json)) (k k' : String) (v : Json)
    (h : k' ≠ k) : lookupAssoc (setAssoc l k v) k' = lookupAssoc l k' := by
  have h2 : ¬(k = k') := fun hh => h hh.symm
  induction l with
  | nil => simp [setAssoc, lookupAssoc, h2]
  | cons kv rest ih =>
    obtain ⟨k1, v1⟩ := kv
    by_cases h1 : k1 = k
    · subst h1
      simp [setAssoc, lookupAssoc, h2]
    · simp [setAssoc, h1, lookupAssoc, ih]

theorem pySub_ok_iff {j : Json} {k : String} {v : Json} :
    pySub j k = .ok v ↔ j.jGet k = some v := by
  cases j <;> simp [pySub, Json.jGet]
  case obj kvs =>
    cases h : lookupAssoc kvs k <;> simp

theorem pySetItem_obj (kvs : List (String × Json)) (k : String) (v : Json) :
    pySetItem (.obj kvs) k v = .ok (.obj (setAssoc kvs k v)) := rfl

/-- Inversion for one coreAssign line: the receiver must be a dictionary
with a coredata dictionary, and the result is the double update. -/
theorem coreAssign_ok {dat dat' : Json} {k : String} {v : Json}
    (h : coreAssign dat k v = .ok dat') :
    ∃ kvs cdl, dat = .obj kvs ∧ lookupAssoc kvs "coredata" = some (.obj cdl) ∧
      dat' = .obj (setAssoc kvs "coredata" (.obj (setAssoc cdl k v))) := by
  cases dat with
  | obj kvs =>
    cases hcd : lookupAssoc kvs "coredata" with
    | none => simp [coreAssign, pySub, hcd] at h
    | some cd =>
      cases cd with
      | obj cdl =>
        refine ⟨kvs, cdl, rfl, hcd, ?_⟩
        simp [coreAssign, pySub, hcd, pySetItem] at h
        exact h.symm
      | null => simp [coreAssign, pySub, hcd, pySetItem] at h
      | bool b => simp [coreAssign, pySub, hcd, pySetItem] at h
      | num n => simp [coreAssign, pySub, hcd, pySetItem] at h
      | str t => simp [coreAssign, pySub, hcd, pySetItem] at h
      | arr xs => simp [coreAssign, pySub, hcd, pySetItem] at h
  | null => simp [coreAssign, pySub] at h
  | bool b => simp [coreAssign, pySub] at h
  | num n => simp [coreAssign, pySub] at h
  | str t => simp [coreAssign, pySub] at h
  | arr xs => simp [coreAssign, pySub] at h

theorem coreAssign_core_same {dat dat' : Json} {k : String} {v : Json}
    (h : coreAssign dat k v = .ok dat') : dat'.jGetCore k = some v := by
  obtain ⟨kvs, cdl, _, _, hd⟩ := coreAssign_ok h
  subst hd
  simp [Json.jGetCore, Json.jGet, lookupAssoc_setAssoc_same]

theorem coreAssign_core_ne {dat dat' : Json} {k k' : String} {v : Json}
    (h : coreAssign dat k v = .ok dat') (hne : k' ≠ k) :
    dat'.jGetCore k' = dat.jGetCore k' := by
  obtain ⟨kvs, cdl, hdat, hcd, hd⟩ := coreAssign_ok h
  subst hd; subst hdat
  simp [Json.jGetCore, Json.jGet, lookupAssoc_setAssoc_same, hcd,
    lookupAssoc_setAssoc_ne _ _ _ _ hne]

theorem coreAssign_top_ne {dat dat' : Json} {k t : String} {v : Json}
    (h : coreAssign dat k v = .ok dat') (hne : t ≠ "coredata") :
    dat'.jGet t = dat.jGet t := by
  obtain ⟨kvs, cdl, hdat, hcd, hd⟩ := coreAssign_ok h
  subst hd; subst hdat
  simp [Json.jGet, lookupAssoc_setAssoc_ne _ _ _ _ hne]

theorem coreAssign_core_obj {dat dat' : Json} {k : String} {v : Json}
    (h : coreAssign dat k v = .ok dat') :
    ∃ cdl, dat'.jGet "coredata" = some (.obj cdl) := by
  obtain ⟨kvs, cdl, _, _, hd⟩ := coreAssign_ok h
  subst hd
  exact ⟨setAssoc cdl k v, by simp [Json.jGet, lookupAssoc_setAssoc_same]⟩

/-- Inversion for the integer right-hand sides of read_metrics. -/
theorem rhsInt_ok {d0 : Json} {k : String} {n : Int}
    (h : rhsInt d0 k = .ok n) :
    ∃ cd0 v, d0.jGet "coredata" = some cd0 ∧ cd0.jGet k = some v ∧ pyInt v = .ok n := by
  cases hc : pySub d0 "coredata" with
  | error e => simp [rhsInt, hc] at h
  | ok cd0 =>
    cases hv : pySub cd0 k with
    | error e => simp [rhsInt, hc, hv] at h
    | ok v =>
      simp only [rhsInt, hc, hv] at h
      exact ⟨cd0, v, pySub_ok_iff.mp hc, pySub_ok_iff.mp hv, h⟩

/-- A falsy data payload has no readable fields at all. -/
theorem falsy_jGet_none {j : Json} (h : j.truthy = false) (t : String) :
    j.jGet t = none := by
  cases j <;> simp_all [Json.truthy, Json.jGet]
  case obj kvs => subst h; simp [lookupAssoc]

theorem falsy_jGetCore_none {j : Json} (h : j.truthy = false) (k : String) :
    j.jGetCore k = none := by
  simp [Json.jGetCore, falsy_jGet_none h]

theorem pySetItem_ok {dat dat' : Json} {k : String} {v : Json}
    (h : pySetItem dat k v = .ok dat') :
    ∃ kvs, dat = .obj kvs ∧ dat' = .obj (setAssoc kvs k v) := by
  cases dat <;> simp [pySetItem] at h
  case obj kvs => exact ⟨kvs, rfl, h.symm⟩

theorem pySetItem_jGet_same {dat dat' : Json} {k : String} {v : Json}
    (h : pySetItem dat k v = .ok dat') : dat'.jGet k = some v := by
  obtain ⟨kvs, _, hd⟩ := pySetItem_ok h
  subst hd
  simp [Json.jGet, lookupAssoc_setAssoc_same]

theorem pySetItem_jGet_ne {dat dat' : Json} {k k' : String} {v : Json}
    (h : pySetItem dat k v = .ok dat') (hne : k' ≠ k) : dat'.jGet k' = dat.jGet k' := by
  obtain ⟨kvs, hdat, hd⟩ := pySetItem_ok h
  subst hd; subst hdat
  simp [Json.jGet, lookupAssoc_setAssoc_ne _ _ _ _ hne]

theorem pySetItem_jGetCore {dat dat' : Json} {k : String} {v : Json}
    (h : pySetItem dat k v = .ok dat') (hk : k ≠ "coredata") (k2 : String) :
    dat'.jGetCore k2 = dat.jGetCore k2 := by
  simp [Json.jGetCore, pySetItem_jGet_ne h (fun hh => hk hh.symm)]

/-- Full inversion of a successful read_metrics assignment block: the
response element supplies all five source fields, the integer fields
convert, the stored values are exactly the conversions (cited-by-count
from the citation-count source), and every other field of the data
payload is untouched. -/
theorem metricsApply_ok {d0 dat dat' : Json}
    (h : metricsApply d0 dat = (.ok (), dat')) :
    ∃ cd0 idv ccv cc dcv dc hv hi,
      d0.jGet "coredata" = some cd0 ∧
      cd0.jGet "dc:identifier" = some idv ∧
      cd0.jGet "citation-count" = some ccv ∧ pyInt ccv = .ok cc ∧
      cd0.jGet "document-count" = some dcv ∧ pyInt dcv = .ok dc ∧
      d0.jGet "h-index" = some hv ∧ pyInt hv = .ok hi ∧
      dat'.jGetCore "dc:identifier" = some idv ∧
      dat'.jGetCore "citation-count" = some (.num cc) ∧
      dat'.jGetCore "cited-by-count" = some (.num cc) ∧
      dat'.jGetCore "document-count" = some (.num dc) ∧
      dat'.jGet "h-index" = some (.num hi) ∧
      (∃ cdl, dat'.jGet "coredata" = some (.obj cdl)) ∧
      (∀ t, t ≠ "coredata" → t ≠ "h-index" → dat'.jGet t = dat.jGet t) ∧
      (∀ k2, k2 ≠ "dc:identifier" → k2 ≠ "citation-count" → k2 ≠ "cited-by-count" →
        k2 ≠ "document-count" → dat'.jGetCore k2 = dat.jGetCore k2) := by
  cases h1 : pySub d0 "coredata" with
  | error e => simp [metricsApply, h1] at h
  | ok cd0 =>
  cases h2 : pySub cd0 "dc:identifier" with
  | error e => simp [metricsApply, h1, h2] at h
  | ok idv =>
  cases h3 : coreAssign dat "dc:identifier" idv with
  | error e => simp [metricsApply, h1, h2, h3] at h
  | ok dat1 =>
  cases h4 : rhsInt d0 "citation-count" with
  | error e => simp [metricsApply, h1, h2, h3, h4] at h
  | ok cc =>
  cases h5 : coreAssign dat1 "citation-count" (.num cc) with
  | error e => simp [metricsApply, h1, h2, h3, h4, h5] at h
  | ok dat2 =>
  cases h6 : coreAssign dat2 "cited-by-count" (.num cc) with
  | error e => simp [metricsApply, h1, h2, h3, h4, h5, h6] at h
  | ok dat3 =>
  cases h7 : rhsInt d0 "document-count" with
  | error e => simp [metricsApply, h1, h2, h3, h4, h5, h6, h7] at h
  | ok dc =>
  cases h8 : coreAssign dat3 "document-count" (.num dc) with
  | error e => simp [metricsApply, h1, h2, h3, h4, h5, h6, h7, h8] at h
  | ok dat4 =>
  cases h9 : pySub d0 "h-index" with
  | error e => simp [metricsApply, h1, h2, h3, h4, h5, h6, h7, h8, h9] at h
  | ok hv =>
  cases h10 : pyInt hv with
  | error e => simp [metricsApply, h1, h2, h3, h4, h5, h6, h7, h8, h9, h10] at h
  | ok hi =>
  cases h11 : pySetItem dat4 "h-index" (.num hi) with
  | error e => simp [metricsApply, h1, h2, h3, h4, h5, h6, h7, h8, h9, h10, h11] at h
  | ok dat5 =>
  have hd' : dat' = dat5 := by
    simp [metricsApply, h1, h2, h3, h4, h5, h6, h7, h8, h9, h10, h11] at h
    exact h.symm
  subst hd'
  have hcd : d0.jGet "coredata" = some cd0 := pySub_ok_iff.mp h1
  obtain ⟨cd4, ccv, hcd4, hccv, hpycc⟩ := rhsInt_ok h4
  obtain ⟨cd7, dcv, hcd7, hdcv, hpydc⟩ := rhsInt_ok h7
  have ecd4 : cd4 = cd0 := Option.some.inj (hcd4.symm.trans hcd)
  have ecd7 : cd7 = cd0 := Option.some.inj (hcd7.symm.trans hcd)
  rw [ecd4] at hccv
  rw [ecd7] at hdcv
  refine ⟨cd0, idv, ccv, cc, dcv, dc, hv, hi, hcd, pySub_ok_iff.mp h2, hccv, hpycc,
    hdcv, hpydc, pySub_ok_iff.mp h9, h10, ?_, ?_, ?_, ?_, ?_, ?_, ?_, ?_⟩
  · rw [pySetItem_jGetCore h11 (by decide) _,
      coreAssign_core_ne h8 (by decide), coreAssign_core_ne h6 (by decide),
      coreAssign_core_ne h5 (by decide)]
    exact coreAssign_core_same h3
  · rw [pySetItem_jGetCore h11 (by decide) _,
      coreAssign_core_ne h8 (by decide), coreAssign_core_ne h6 (by decide)]
    exact coreAssign_core_same h5
  · rw [pySetItem_jGetCore h11 (by decide) _, coreAssign_core_ne h8 (by decide)]
    exact coreAssign_core_same h6
  · rw [pySetItem_jGetCore h11 (by decide) _]
    exact coreAssign_core_same h8
  · exact pySetItem_jGet_same h11
  · obtain ⟨cdl, hcdl⟩ := coreAssign_core_obj h8
    exact ⟨cdl, by rw [pySetItem_jGet_ne h11 (by decide)]; exact hcdl⟩
  · intro t ht1 ht2
    rw [pySetItem_jGet_ne h11 ht2, coreAssign_top_ne h8 ht1, coreAssign_top_ne h6 ht1,
      coreAssign_top_ne h5 ht1, coreAssign_top_ne h3 ht1]
  · intro k2 hk1 hk2 hk3 hk4
    rw [pySetItem_jGetCore h11 (by decide) _, coreAssign_core_ne h8 hk4,
      coreAssign_core_ne h6 hk3, coreAssign_core_ne h5 hk2, coreAssign_core_ne h3 hk1]

/-- Inversion of a successful read_metrics call: the request, the
extraction of the first payload element, the untouched state components,
and the assignment block applied to the (possibly freshly created) data
payload. -/
theorem read_metrics_ok {s : ProfileState} {c : Client} {s2 : ProfileState} {urls : List String}
    (h : ElsAuthor.read_metrics s (some c) = (.ok true, s2, urls)) :
    ∃ resp lst d0,
      c (metricsUrl s.uri) = .ok resp ∧
      pySub resp ElsAuthor.payload_type = .ok lst ∧
      pyIndex lst 0 = .ok d0 ∧
      urls = [metricsUrl s.uri] ∧
      s2.uri = s.uri ∧ s2.client = s.client ∧ s2.doc_list = s.doc_list ∧
      s2.docsframe = s.docsframe ∧ s2.fs = s.fs ∧
      metricsApply d0 (if s.data.truthy then s.data
        else Json.obj [("coredata", Json.obj [])]) = (.ok (), s2.data) := by
  cases hr : c (metricsUrl s.uri) with
  | error e => simp [ElsAuthor.read_metrics, hr] at h
  | ok resp =>
  cases hl : pySub resp ElsAuthor.payload_type with
  | error e => simp [ElsAuthor.read_metrics, hr, hl] at h
  | ok lst =>
  cases hd : pyIndex lst 0 with
  | error e => simp [ElsAuthor.read_metrics, hr, hl, hd] at h
  | ok d0 =>
  cases hm : metricsApply d0 (if s.data.truthy then s.data
      else Json.obj [("coredata", Json.obj [])]) with
  | mk r dat =>
  cases r with
  | error e => simp [ElsAuthor.read_metrics, hr, hl, hd, hm] at h
  | ok u =>
    simp only [ElsAuthor.read_metrics, hr, hl, hd, hm] at h
    have hs2 : s2 = { s with data := dat } := by
      have h2 := congrArg (fun p => p.2.1) h
      simpa using h2.symm
    have hurls : urls = [metricsUrl s.uri] := by
      have h2 := congrArg (fun p => p.2.2) h
      simpa using h2.symm
    subst hs2; subst hurls
    exact ⟨resp, lst, d0, rfl, hl, hd, rfl, rfl, rfl, rfl, rfl, rfl, by cases u; exact hm⟩

/-- C3: for every successful read_metrics call on an author, the stored
coredata document-count and citation-count and the stored top-level
h-index are the integer conversions of the corresponding (string or
numeric) fields of the first element of the response payload, and the
stored coredata cited-by-count is the integer conversion of the response
citation-count field, not of its cited-by-count field. -/
theorem read_metrics_stores_conversions
    (s : ProfileState) (c : Client) (s2 : ProfileState) (urls : List String)
    (h : ElsAuthor.read_metrics s (some c) = (.ok true, s2, urls)) :
    metricsStoresConversions s c s2 := by
  obtain ⟨resp, lst, d0, hr, hl, hd, -, -, -, -, -, -, hm⟩ := read_metrics_ok h
  obtain ⟨cd0, idv, ccv, cc, dcv, dc, hv, hi, f1, f2, f3, f4, f5, f6, f7, f8,
    g1, g2, g3, g4, g5, -, -, -⟩ := metricsApply_ok hm
  exact ⟨resp, lst, d0, cd0, idv, ccv, cc, dcv, dc, hv, hi, hr, hl, hd,
    f1, f2, g1, f3, f4, g2, f5, f6, g4, f7, f8, g5, g3⟩

/-- Witness for C3: the metrics client whose counts are strings, applied
to the fresh demo state. -/
theorem read_metrics_stores_conversions_witness :
    ElsAuthor.read_metrics demoState (some demoClientMetrics) =
      (.ok true, (ElsAuthor.read_metrics demoState (some demoClientMetrics)).2.1,
        (ElsAuthor.read_metrics demoState (some demoClientMetrics)).2.2) ∧
    metricsStoresConversions demoState demoClientMetrics
      (ElsAuthor.read_metrics demoState (some demoClientMetrics)).2.1 :=
  ⟨rfl, read_metrics_stores_conversions demoState demoClientMetrics _ _ rfl⟩

/-- C9: a successful read_metrics call mutates data in place: all other
state components are untouched, the data and coredata containers exist
afterwards (created when the payload was absent), exactly the five
metric fields are written, and every other pre-existing field of data
and of coredata keeps its value. -/
theorem read_metrics_frame
    (s : ProfileState) (c : Client) (s2 : ProfileState) (urls : List String)
    (h : ElsAuthor.read_metrics s (some c) = (.ok true, s2, urls)) :
    metricsFrame s s2 := by
  obtain ⟨resp, lst, d0, -, -, -, -, h1, h2, h3, h4, h5, hm⟩ := read_metrics_ok h
  obtain ⟨cd0, idv, ccv, cc, dcv, dc, hv, hi, -, -, -, -, -, -, -, -,
    g1, g2, g3, g4, g5, hobj, hframe1, hframe2⟩ := metricsApply_ok hm
  refine ⟨h1, h2, h3, h4, h5, hobj, ⟨idv, g1⟩, ⟨cc, g2⟩, ⟨cc, g3⟩, ⟨dc, g4⟩,
    ⟨hi, g5⟩, ?_, ?_⟩
  · intro t ht1 ht2
    rw [hframe1 t ht1 ht2]
    by_cases hdt : s.data.truthy
    · simp [hdt]
    · have hf : s.data.truthy = false := by simpa using hdt
      have hne : ¬("coredata" = t) := fun hh => ht1 hh.symm
      rw [falsy_jGet_none hf t]
      simp [hf, Json.jGet, lookupAssoc, hne]
  · intro k h1k h2k h3k h4k
    rw [hframe2 k h1k h2k h3k h4k]
    by_cases hdt : s.data.truthy
    · simp [hdt]
    · have hf : s.data.truthy = false := by simpa using hdt
      rw [falsy_jGetCore_none hf k]
      simp [hf, Json.jGetCore, Json.jGet, lookupAssoc]

/-- Witness for C9: a state whose data payload has a pre-existing foreign
field and a coredata with a pre-existing foreign field, both preserved. -/
theorem read_metrics_frame_witness :
    ElsAuthor.read_metrics
        { demoState with data := .obj [("keep", .str "me"),
          ("coredata", .obj [("old", .num 1)])] } (some demoClientMetrics) =
      (.ok true,
        (ElsAuthor.read_metrics
          { demoState with data := .obj [("keep", .str "me"),
            ("coredata", .obj [("old", .num 1)])] } (some demoClientMetrics)).2.1,
        (ElsAuthor.read_metrics
          { demoState with data := .obj [("keep", .str "me"),
            ("coredata", .obj [("old", .num 1)])] } (some demoClientMetrics)).2.2) ∧
    metricsFrame
      { demoState with data := .obj [("keep", .str "me"),
        ("coredata", .obj [("old", .num 1)])] }
      (ElsAuthor.read_metrics
        { demoState with data := .obj [("keep", .str "me"),
          ("coredata", .obj [("old", .num 1)])] } (some demoClientMetrics)).2.1 :=
  ⟨rfl, read_metrics_frame _ demoClientMetrics _ _ rfl⟩

/-- Supplying the client parameter is the same as calling on the state
with that client bound. -/
theorem read_docs_bind (s : ProfileState) (pt : String) (c : Client) :
    ElsProfile.read_docs s pt (some c) =
      ElsProfile.read_docs { s with client := some c } pt none := rfl

/-- Evaluation of read_docs on a bound client whose response carries an
entry list. -/
theorem read_docs_ok_list (s : ProfileState) (pt : String) (c : Client) {resp sr : Json}
    {l : List Json} (hc : s.client = some c) (hresp : c (searchUrl s.uri) = .ok resp)
    (hsr : resp.jGet "search-results" = some sr)
    (hen : sr.jGet "entry" = some (.arr l)) :
    ElsProfile.read_docs s pt none =
      (.ok true, { s with doc_list := some (.arr l), docsframe := some (.arr l) },
        [searchUrl s.uri]) := by
  obtain ⟨kvs, rfl⟩ : ∃ kvs, resp = Json.obj kvs := by
    cases resp with
    | obj kvs => exact ⟨kvs, rfl⟩
    | null => simp [Json.jGet] at hsr
    | bool b => simp [Json.jGet] at hsr
    | num n => simp [Json.jGet] at hsr
    | str t => simp [Json.jGet] at hsr
    | arr xs => simp [Json.jGet] at hsr
  obtain ⟨kvs2, rfl⟩ : ∃ kvs2, sr = Json.obj kvs2 := by
    cases sr with
    | obj kvs2 => exact ⟨kvs2, rfl⟩
    | null => simp [Json.jGet] at hen
    | bool b => simp [Json.jGet] at hen
    | num n => simp [Json.jGet] at hen
    | str t => simp [Json.jGet] at hen
    | arr xs => simp [Json.jGet] at hen
  simp only [Json.jGet] at hsr hen
  simp [ElsProfile.read_docs, hc, hresp, pyDictGet, hsr, hen, pyLen]

/-- Evaluation of read_docs on a bound client whose response lacks the
search-results key: the empty list is stored and True returned. -/
theorem read_docs_ok_noSR (s : ProfileState) (pt : String) (c : Client)
    {kvs : List (String × Json)} (hc : s.client = some c)
    (hresp : c (searchUrl s.uri) = .ok (.obj kvs))
    (hsr : lookupAssoc kvs "search-results" = none) :
    ElsProfile.read_docs s pt none =
      (.ok true, { s with doc_list := some (.arr []), docsframe := some (.arr []) },
        [searchUrl s.uri]) := by
  simp [ElsProfile.read_docs, hc, hresp, pyDictGet, hsr, lookupAssoc, pyLen]

/-- Evaluation of read_docs on a bound client whose request raises a
transport error. -/
theorem read_docs_transport (s : ProfileState) (pt : String) (c : Client)
    (hc : s.client = some c) (hresp : c (searchUrl s.uri) = .error ()) :
    ElsProfile.read_docs s pt none = (.ok false, s, [searchUrl s.uri]) := by
  simp [ElsProfile.read_docs, hc, hresp]

/-- C1: read_docs with an available client and a response whose
search-results.entry is the two-document list returns True and stores
exactly that list, whatever was cached before; with a response lacking
the search-results key it still returns True and stores the empty
list. -/
theorem read_docs_entry_claim (s : ProfileState) (pt : String) (c : Client) (els : Option Client)
    (havail : els = some c ∨ (els = none ∧ s.client = some c)) :
    (∀ resp sr d1 d2, c (searchUrl s.uri) = .ok resp →
        resp.jGet "search-results" = some sr →
        sr.jGet "entry" = some (.arr [d1, d2]) →
        (ElsProfile.read_docs s pt els).1 = .ok true ∧
        (ElsProfile.read_docs s pt els).2.1.doc_list = some (.arr [d1, d2])) ∧
    (∀ kvs, c (searchUrl s.uri) = .ok (.obj kvs) →
        lookupAssoc kvs "search-results" = none →
        (ElsProfile.read_docs s pt els).1 = .ok true ∧
        (ElsProfile.read_docs s pt els).2.1.doc_list = some (.arr [])) := by
  rcases havail with rfl | ⟨rfl, hc⟩
  · constructor
    · intro resp sr d1 d2 hresp hsr hen
      rw [read_docs_bind,
        read_docs_ok_list { s with client := some c } pt c rfl hresp hsr hen]
      exact ⟨rfl, rfl⟩
    · intro kvs hresp hsr
      rw [read_docs_bind, read_docs_ok_noSR { s with client := some c } pt c rfl hresp hsr]
      exact ⟨rfl, rfl⟩
  · constructor
    · intro resp sr d1 d2 hresp hsr hen
      rw [read_docs_ok_list _ pt c hc hresp hsr hen]
      exact ⟨rfl, rfl⟩
    · intro kvs hresp hsr
      rw [read_docs_ok_noSR _ pt c hc hresp hsr]
      exact ⟨rfl, rfl⟩

/-- Witness for C1: the two-document client overwrites the previously
cached list of the demo state, and the no-search-results client leaves
an empty list, both with result True. -/
theorem read_docs_entry_claim_witness :
    ((ElsProfile.read_docs demoStateDocs ElsAuthor.payload_type (some demoClientDocs)).1 =
        .ok true ∧
      (ElsProfile.read_docs demoStateDocs ElsAuthor.payload_type
          (some demoClientDocs)).2.1.doc_list =
        some (.arr [.obj [("dc:title", .str "first")], .str "second"])) ∧
    ((ElsProfile.read_docs demoStateDocs ElsAuthor.payload_type (some demoClientNoSR)).1 =
        .ok true ∧
      (ElsProfile.read_docs demoStateDocs ElsAuthor.payload_type
          (some demoClientNoSR)).2.1.doc_list = some (.arr [])) :=
  ⟨(read_docs_entry_claim demoStateDocs ElsAuthor.payload_type demoClientDocs
      (some demoClientDocs) (Or.inl rfl)).1 _ _ _ _ rfl rfl rfl,
   (read_docs_entry_claim demoStateDocs ElsAuthor.payload_type demoClientNoSR
      (some demoClientNoSR) (Or.inl rfl)).2 _ rfl rfl⟩

/-- C4: with an available client whose request raises a transport error,
read_docs catches the error (no exception escapes), returns False, and
leaves doc_list exactly as it was. -/
theorem read_docs_transport_claim (s : ProfileState) (pt : String) (c : Client)
    (els : Option Client)
    (havail : els = some c ∨ (els = none ∧ s.client = some c))
    (herr : c (searchUrl s.uri) = .error ()) :
    (ElsProfile.read_docs s pt els).1 = .ok false ∧
    (ElsProfile.read_docs s pt els).2.1.doc_list = s.doc_list := by
  rcases havail with rfl | ⟨rfl, hc⟩
  · rw [read_docs_bind, read_docs_transport { s with client := some c } pt c rfl herr]
    exact ⟨rfl, rfl⟩
  · rw [read_docs_transport _ pt c hc herr]
    exact ⟨rfl, rfl⟩

/-- Witness for C4: the failing client on a state with a cached list:
False is returned and the cache is untouched. -/
theorem read_docs_transport_claim_witness :
    (ElsProfile.read_docs demoStateDocs ElsAuthor.payload_type (some demoClientErr)).1 =
      .ok false ∧
    (ElsProfile.read_docs demoStateDocs ElsAuthor.payload_type
        (some demoClientErr)).2.1.doc_list = demoStateDocs.doc_list :=
  read_docs_transport_claim demoStateDocs ElsAuthor.payload_type demoClientErr
    (some demoClientErr) (Or.inl rfl) rfl

/-- With a bound client, every outcome of read_docs has requested
exactly the one search URL. -/
theorem read_docs_log (s : ProfileState) (pt : String) (c : Client)
    (hc : s.client = some c) :
    (ElsProfile.read_docs s pt none).2.2 = [searchUrl s.uri] := by
  simp only [ElsProfile.read_docs, hc]
  split
  · rfl
  · split
    · rfl
    · split
      · rfl
      · split
        · rfl
        · rfl

/-- C5 counterexample: for the demo author profile, the single GET that
read_docs issues goes to the http search URL, which differs from the
https URL the claim names. -/
theorem read_docs_url_counterexample :
    (ElsAuthor.read_docs demoStateBound none).2.2 =
      ["http://api.elsevier.com/content/search/scopus?query=au-id(7004212771)&view=COMPLETE"] ∧
    "http://api.elsevier.com/content/search/scopus?query=au-id(7004212771)&view=COMPLETE" ≠
      "https://api.elsevier.com/content/search/scopus?query=au-id(7004212771)&view=COMPLETE" := by
  refine ⟨?_, by decide⟩
  rfl

/-- C5 amended: with an available client, read_docs issues exactly one
GET, for author and affiliation alike, and the URL is the plain-http
search endpoint with the trailing path segment of the entity URI as the
au-id filter. -/
theorem read_docs_one_get_http (s : ProfileState) (c : Client) (els : Option Client)
    (havail : els = some c ∨ (els = none ∧ s.client = some c)) :
    (ElsAuthor.read_docs s els).2.2 = [searchUrl s.uri] ∧
    (ElsAffil.read_docs s els).2.2 = [searchUrl s.uri] ∧
    searchUrl s.uri = "http://api.elsevier.com/content/search/scopus?query=au-id(" ++
      lastSeg s.uri ++ ")&view=COMPLETE" := by
  rcases havail with rfl | ⟨rfl, hc⟩
  · refine ⟨?_, ?_, rfl⟩ <;>
      simp only [ElsAuthor.read_docs, ElsAffil.read_docs, read_docs_bind] <;>
      exact read_docs_log { s with client := some c } _ c rfl
  · exact ⟨read_docs_log s _ c hc, read_docs_log s _ c hc, rfl⟩

/-- Witness for the amended C5 at the demo state with a parameter
client. -/
theorem read_docs_one_get_http_witness :
    (ElsAuthor.read_docs demoState (some demoClientErr)).2.2 = [searchUrl demoState.uri] ∧
    (ElsAffil.read_docs demoState (some demoClientErr)).2.2 = [searchUrl demoState.uri] ∧
    searchUrl demoState.uri = "http://api.elsevier.com/content/search/scopus?query=au-id(" ++
      lastSeg demoState.uri ++ ")&view=COMPLETE" :=
  read_docs_one_get_http demoState demoClientErr (some demoClientErr) (Or.inl rfl)

/-- C7 counterexample: the numeric author ID zero is falsy in python, so
this ID-only construction raises a ValueError instead of producing the
base URL with "0" appended. -/
theorem init_id_zero_counterexample :
    ElsAuthor.init "" (.num 0) = .error (.valueError "No URI or author ID specified") := rfl

/-- C7 amended: a URI-only construction stores the URI verbatim; an
ID-only construction with a truthy ID (a non-zero number or a non-empty
string) stores the fixed base URL concatenated with the stringified ID;
for author and affiliation alike. -/
theorem init_uri_claim :
    (∀ uri, uri ≠ "" → ∃ st, ElsAuthor.init uri (.str "") = .ok st ∧ st.uri = uri) ∧
    (∀ uri, uri ≠ "" → ∃ st, ElsAffil.init uri (.str "") = .ok st ∧ st.uri = uri) ∧
    (∀ idj : PyId, idj.truthy = true → ∃ st, ElsAuthor.init "" idj = .ok st ∧
      st.uri = ElsAuthor.uri_base ++ idj.pyStr) ∧
    (∀ idj : PyId, idj.truthy = true → ∃ st, ElsAffil.init "" idj = .ok st ∧
      st.uri = ElsAffil.uri_base ++ idj.pyStr) := by
  refine ⟨?_, ?_, ?_, ?_⟩
  · intro uri h
    exact ⟨freshProfile uri, by simp [ElsAuthor.init, h, PyId.truthy], rfl⟩
  · intro uri h
    exact ⟨freshProfile uri, by simp [ElsAffil.init, h, PyId.truthy], rfl⟩
  · intro idj h
    exact ⟨freshProfile (ElsAuthor.uri_base ++ idj.pyStr),
      by simp [ElsAuthor.init, h], rfl⟩
  · intro idj h
    exact ⟨freshProfile (ElsAffil.uri_base ++ idj.pyStr),
      by simp [ElsAffil.init, h], rfl⟩

/-- Witness for the amended C7: a concrete URI, a numeric ID and a
string ID. -/
theorem init_uri_claim_witness :
    (∃ st, ElsAuthor.init "https://api.elsevier.com/content/author/author_id/123"
      (.str "") = .ok st ∧
      st.uri = "https://api.elsevier.com/content/author/author_id/123") ∧
    (∃ st, ElsAuthor.init "" (.num 123) = .ok st ∧
      st.uri = ElsAuthor.uri_base ++ (PyId.num 123).pyStr) ∧
    (∃ st, ElsAffil.init "" (.str "60101411") = .ok st ∧
      st.uri = ElsAffil.uri_base ++ (PyId.str "60101411").pyStr) :=
  ⟨init_uri_claim.1 _ (by decide),
   init_uri_claim.2.2.1 _ (by decide),
   init_uri_claim.2.2.2 _ (by decide)⟩

/-- C8 counterexample: supplying both a URI and the numeric ID zero
raises nothing: the falsy ID sends the constructor down the URI-only
branch and an object is produced. -/
theorem init_both_counterexample :
    ElsAuthor.init "https://api.elsevier.com/content/author/author_id/123" (.num 0) =
      .ok (freshProfile "https://api.elsevier.com/content/author/author_id/123") := rfl

/-- C8 amended: construction raises a ValueError when both arguments are
truthy, and when neither is truthy (a falsy argument such as the number
zero or the empty string counts as not supplied); for author and
affiliation alike. -/
theorem init_error_claim :
    (∀ uri (idj : PyId), uri ≠ "" → idj.truthy = true → ElsAuthor.init uri idj =
      .error (.valueError "Both URI and author ID specified; just need one.")) ∧
    (∀ idj : PyId, idj.truthy = false → ElsAuthor.init "" idj =
      .error (.valueError "No URI or author ID specified")) ∧
    (∀ uri (idj : PyId), uri ≠ "" → idj.truthy = true → ElsAffil.init uri idj =
      .error (.valueError "Both URI and affiliation ID specified; just need one.")) ∧
    (∀ idj : PyId, idj.truthy = false → ElsAffil.init "" idj =
      .error (.valueError "No URI or affiliation ID specified")) := by
  refine ⟨?_, ?_, ?_, ?_⟩
  · intro uri idj h1 h2
    simp [ElsAuthor.init, h1, h2]
  · intro idj h
    simp [ElsAuthor.init, h]
  · intro uri idj h1 h2
    simp [ElsAffil.init, h1, h2]
  · intro idj h
    simp [ElsAffil.init, h]

/-- Witness for the amended C8: both truthy, and neither truthy. -/
theorem init_error_claim_witness :
    ElsAuthor.init "https://api.elsevier.com/content/author/author_id/123" (.num 123) =
      .error (.valueError "Both URI and author ID specified; just need one.") ∧
    ElsAuthor.init "" (.str "") =
      .error (.valueError "No URI or author ID specified") ∧
    ElsAffil.init "x" (.str "y") =
      .error (.valueError "Both URI and affiliation ID specified; just need one.") ∧
    ElsAffil.init "" (.num 0) =
      .error (.valueError "No URI or affiliation ID specified") :=
  ⟨init_error_claim.1 _ _ (by decide) (by decide),
   init_error_claim.2.1 _ (by decide),
   init_error_claim.2.2.1 _ _ (by decide) (by decide),
   init_error_claim.2.2.2 _ (by decide)⟩

theorem keyError_nonBinding (m : String) : (PyErr.keyError m).nonBinding := by
  refine ⟨fun m2 => by simp, by simp⟩

theorem typeError_nonBinding (m : String) : (PyErr.typeError m).nonBinding := by
  refine ⟨fun m2 => by simp, by simp⟩

theorem indexError_nonBinding (m : String) : (PyErr.indexError m).nonBinding := by
  refine ⟨fun m2 => by simp, by simp⟩

theorem invalidLiteral_nonBinding :
    (PyErr.valueError "invalid literal for int with base 10").nonBinding := by
  refine ⟨fun m2 => by simp, by decide⟩

theorem pySub_error_nonBinding {j : Json} {k : String} {e : PyErr}
    (h : pySub j k = .error e) : e.nonBinding := by
  cases j with
  | obj kvs =>
    cases hl : lookupAssoc kvs k with
    | some v => simp [pySub, hl] at h
    | none =>
      simp only [pySub, hl, Except.error.injEq] at h
      exact h ▸ keyError_nonBinding k
  | null => simp only [pySub, Except.error.injEq] at h; exact h ▸ typeError_nonBinding _
  | bool b => simp only [pySub, Except.error.injEq] at h; exact h ▸ typeError_nonBinding _
  | num n => simp only [pySub, Except.error.injEq] at h; exact h ▸ typeError_nonBinding _
  | str t => simp only [pySub, Except.error.injEq] at h; exact h ▸ typeError_nonBinding _
  | arr xs => simp only [pySub, Except.error.injEq] at h; exact h ▸ typeError_nonBinding _

theorem pyIndex_error_nonBinding {j : Json} {i : Nat} {e : PyErr}
    (h : pyIndex j i = .error e) : e.nonBinding := by
  cases j with
  | arr xs =>
    cases hl : xs[i]? with
    | some v => simp [pyIndex, hl] at h
    | none =>
      simp only [pyIndex, hl, Except.error.injEq] at h
      exact h ▸ indexError_nonBinding _
  | str t =>
    cases hl : t.data[i]? with
    | some v => simp [pyIndex, hl] at h
    | none =>
      simp only [pyIndex, hl, Except.error.injEq] at h
      exact h ▸ indexError_nonBinding _
  | obj kvs => simp only [pyIndex, Except.error.injEq] at h; exact h ▸ keyError_nonBinding _
  | null => simp only [pyIndex, Except.error.injEq] at h; exact h ▸ typeError_nonBinding _
  | bool b => simp only [pyIndex, Except.error.injEq] at h; exact h ▸ typeError_nonBinding _
  | num n => simp only [pyIndex, Except.error.injEq] at h; exact h ▸ typeError_nonBinding _

theorem pyInt_error_nonBinding {j : Json} {e : PyErr}
    (h : pyInt j = .error e) : e.nonBinding := by
  cases j with
  | num n => simp [pyInt] at h
  | bool b => simp [pyInt] at h
  | str t =>
    cases hp : parsePyInt t with
    | some n => simp [pyInt, hp] at h
    | none =>
      simp only [pyInt, hp, Except.error.injEq] at h
      exact h ▸ invalidLiteral_nonBinding
  | null => simp only [pyInt, Except.error.injEq] at h; exact h ▸ typeError_nonBinding _
  | arr xs => simp only [pyInt, Except.error.injEq] at h; exact h ▸ typeError_nonBinding _
  | obj kvs => simp only [pyInt, Except.error.injEq] at h; exact h ▸ typeError_nonBinding _

theorem pySetItem_error_nonBinding {j : Json} {k : String} {v : Json} {e : PyErr}
    (h : pySetItem j k v = .error e) : e.nonBinding := by
  cases j with
  | obj kvs => simp [pySetItem] at h
  | null => simp only [pySetItem, Except.error.injEq] at h; exact h ▸ typeError_nonBinding _
  | bool b => simp only [pySetItem, Except.error.injEq] at h; exact h ▸ typeError_nonBinding _
  | num n => simp only [pySetItem, Except.error.injEq] at h; exact h ▸ typeError_nonBinding _
  | str t => simp only [pySetItem, Except.error.injEq] at h; exact h ▸ typeError_nonBinding _
  | arr xs => simp only [pySetItem, Except.error.injEq] at h; exact h ▸ typeError_nonBinding _

theorem coreAssign_error_nonBinding {dat : Json} {k : String} {v : Json} {e : PyErr}
    (h : coreAssign dat k v = .error e) : e.nonBinding := by
  cases h1 : pySub dat "coredata" with
  | error e1 =>
    simp only [coreAssign, h1, Except.error.injEq] at h
    exact h ▸ pySub_error_nonBinding h1
  | ok cd =>
    cases h2 : pySetItem cd k v with
    | error e1 =>
      simp only [coreAssign, h1, h2, Except.error.injEq] at h
      exact h ▸ pySetItem_error_nonBinding h2
    | ok cd2 =>
      simp only [coreAssign, h1, h2] at h
      exact pySetItem_error_nonBinding h

theorem rhsInt_error_nonBinding {d0 : Json} {k : String} {e : PyErr}
    (h : rhsInt d0 k = .error e) : e.nonBinding := by
  cases h1 : pySub d0 "coredata" with
  | error e1 =>
    simp only [rhsInt, h1, Except.error.injEq] at h
    exact h ▸ pySub_error_nonBinding h1
  | ok cd =>
    cases h2 : pySub cd k with
    | error e1 =>
      simp only [rhsInt, h1, h2, Except.error.injEq] at h
      exact h ▸ pySub_error_nonBinding h2
    | ok v =>
      simp only [rhsInt, h1, h2] at h
      exact pyInt_error_nonBinding h

theorem prodErr_inj {e1 e : PyErr} {a b : Json}
    (h : ((Except.error e1 : Except PyErr Unit), a) = (.error e, b)) : e1 = e := by
  have h2 := (Prod.ext_iff.mp h).1
  simpa using h2

theorem metricsApply_error_nonBinding {d0 dat dat2 : Json} {e : PyErr}
    (h : metricsApply d0 dat = (.error e, dat2)) : e.nonBinding := by
  cases h1 : pySub d0 "coredata" with
  | error e1 =>
    simp only [metricsApply, h1] at h
    exact (prodErr_inj h) ▸ pySub_error_nonBinding h1
  | ok cd0 =>
  cases h2 : pySub cd0 "dc:identifier" with
  | error e1 =>
    simp only [metricsApply, h1, h2] at h
    exact (prodErr_inj h) ▸ pySub_error_nonBinding h2
  | ok idv =>
  cases h3 : coreAssign dat "dc:identifier" idv with
  | error e1 =>
    simp only [metricsApply, h1, h2, h3] at h
    exact (prodErr_inj h) ▸ coreAssign_error_nonBinding h3
  | ok dat1 =>
  cases h4 : rhsInt d0 "citation-count" with
  | error e1 =>
    simp only [metricsApply, h1, h2, h3, h4] at h
    exact (prodErr_inj h) ▸ rhsInt_error_nonBinding h4
  | ok cc =>
  cases h5 : coreAssign dat1 "citation-count" (.num cc) with
  | error e1 =>
    simp only [metricsApply, h1, h2, h3, h4, h5] at h
    exact (prodErr_inj h) ▸ coreAssign_error_nonBinding h5
  | ok dat2x =>
  cases h6 : coreAssign dat2x "cited-by-count" (.num cc) with
  | error e1 =>
    simp only [metricsApply, h1, h2, h3, h4, h5, h6] at h
    exact (prodErr_inj h) ▸ coreAssign_error_nonBinding h6
  | ok dat3 =>
  cases h7 : rhsInt d0 "document-count" with
  | error e1 =>
    simp only [metricsApply, h1, h2, h3, h4, h5, h6, h7] at h
    exact (prodErr_inj h) ▸ rhsInt_error_nonBinding h7
  | ok dc =>
  cases h8 : coreAssign dat3 "document-count" (.num dc) with
  | error e1 =>
    simp only [metricsApply, h1, h2, h3, h4, h5, h6, h7, h8] at h
    exact (prodErr_inj h) ▸ coreAssign_error_nonBinding h8
  | ok dat4 =>
  cases h9 : pySub d0 "h-index" with
  | error e1 =>
    simp only [metricsApply, h1, h2, h3, h4, h5, h6, h7, h8, h9] at h
    exact (prodErr_inj h) ▸ pySub_error_nonBinding h9
  | ok hv =>
  cases h10 : pyInt hv with
  | error e1 =>
    simp only [metricsApply, h1, h2, h3, h4, h5, h6, h7, h8, h9, h10] at h
    exact (prodErr_inj h) ▸ pyInt_error_nonBinding h10
  | ok hi =>
  cases h11 : pySetItem dat4 "h-index" (.num hi) with
  | error e1 =>
    simp only [metricsApply, h1, h2, h3, h4, h5, h6, h7, h8, h9, h10, h11] at h
    exact (prodErr_inj h) ▸ pySetItem_error_nonBinding h11
  | ok dat5 =>
    simp [metricsApply, h1, h2, h3, h4, h5, h6, h7, h8, h9, h10, h11] at h

theorem pyDictGet_error {j : Json} {k : String} {dflt : Json} {e : PyErr}
    (h : pyDictGet j k dflt = .error e) : ∃ m, e = .attributeError m := by
  cases j <;> simp [pyDictGet] at h <;> exact ⟨_, h.symm⟩

theorem pyLen_error {j : Json} {e : PyErr}
    (h : pyLen j = .error e) : ∃ m, e = .typeError m := by
  cases j <;> simp [pyLen] at h <;> exact ⟨_, h.symm⟩

/-- With a bound client, read_docs never raises any ValueError (in
particular not the binding error). -/
theorem read_docs_bound_no_valueError (s : ProfileState) (pt : String) (c : Client)
    (hc : s.client = some c) (m : String) :
    (ElsProfile.read_docs s pt none).1 ≠ .error (.valueError m) := by
  cases hr : c (searchUrl s.uri) with
  | error u => cases u; simp [ElsProfile.read_docs, hc, hr]
  | ok resp =>
    cases h1 : pyDictGet resp "search-results" (Json.obj []) with
    | error e =>
      obtain ⟨m2, rfl⟩ := pyDictGet_error h1
      simp [ElsProfile.read_docs, hc, hr, h1]
    | ok sr =>
      cases h2 : pyDictGet sr "entry" (Json.arr []) with
      | error e =>
        obtain ⟨m2, rfl⟩ := pyDictGet_error h2
        simp [ElsProfile.read_docs, hc, hr, h1, h2]
      | ok entry =>
        cases h3 : pyLen entry with
        | error e =>
          obtain ⟨m2, rfl⟩ := pyLen_error h3
          simp [ElsProfile.read_docs, hc, hr, h1, h2, h3]
        | ok n =>
          simp [ElsProfile.read_docs, hc, hr, h1, h2, h3]

/-- C6 amended: read_docs raises its binding ValueError exactly when no
client is available (and never any ValueError otherwise); read_metrics
never consults the bound client: without a client argument it raises an
AttributeError that escapes even when a client is bound, and with a
client argument it never raises an attribute error nor the binding
ValueError. -/
theorem client_binding_claim :
    (∀ s pt, s.client = none → (ElsProfile.read_docs s pt none).1 =
      .error (.valueError "Entity object not currently bound to els_client instance.")) ∧
    (∀ s pt (c : Client) els, (els = some c ∨ (els = none ∧ s.client = some c)) →
      ∀ m, (ElsProfile.read_docs s pt els).1 ≠ .error (.valueError m)) ∧
    (∀ s, (ElsAuthor.read_metrics s none).1 =
      .error (.attributeError "NoneType object has no attribute exec_request")) ∧
    (∀ s (c : Client) e, (ElsAuthor.read_metrics s (some c)).1 = .error e →
      e.nonBinding) := by
  refine ⟨?_, ?_, ?_, ?_⟩
  · intro s pt h
    simp [ElsProfile.read_docs, h]
  · intro s pt c els havail m
    rcases havail with rfl | ⟨rfl, hc⟩
    · rw [read_docs_bind]
      exact read_docs_bound_no_valueError { s with client := some c } pt c rfl m
    · exact read_docs_bound_no_valueError s pt c hc m
  · intro s
    rfl
  · intro s c e h
    cases hr : c (metricsUrl s.uri) with
    | error u => cases u; simp [ElsAuthor.read_metrics, hr] at h
    | ok resp =>
      cases hl : pySub resp ElsAuthor.payload_type with
      | error e1 =>
        simp only [ElsAuthor.read_metrics, hr, hl, Except.error.injEq] at h
        exact h ▸ pySub_error_nonBinding hl
      | ok lst =>
        cases hd : pyIndex lst 0 with
        | error e1 =>
          simp only [ElsAuthor.read_metrics, hr, hl, hd, Except.error.injEq] at h
          exact h ▸ pyIndex_error_nonBinding hd
        | ok d0 =>
          cases hm : metricsApply d0 (if s.data.truthy then s.data
              else Json.obj [("coredata", Json.obj [])]) with
          | mk r dat =>
            cases r with
            | error e1 =>
              simp only [ElsAuthor.read_metrics, hr, hl, hd, hm, Except.error.injEq] at h
              exact h ▸ metricsApply_error_nonBinding hm
            | ok u =>
              simp [ElsAuthor.read_metrics, hr, hl, hd, hm] at h

/-- C6 counterexample: read_metrics on an entity with a bound client but
no client argument does not complete with a boolean result: the
attribute access on None escapes even though a client is bound. -/
theorem read_metrics_bound_counterexample :
    demoStateBound.client = some demoClientMetrics ∧
    (ElsAuthor.read_metrics demoStateBound none).1 =
      .error (.attributeError "NoneType object has no attribute exec_request") :=
  ⟨rfl, rfl⟩

/-- Witness for the amended C6: the binding error on an unbound state,
its absence with a parameter client, and the attribute error of
read_metrics without a parameter client. -/
theorem client_binding_claim_witness :
    demoState.client = none ∧
    (ElsProfile.read_docs demoState ElsAuthor.payload_type none).1 =
      .error (.valueError "Entity object not currently bound to els_client instance.") ∧
    (∀ m, (ElsProfile.read_docs demoState ElsAuthor.payload_type
      (some demoClientDocs)).1 ≠ .error (.valueError m)) ∧
    (ElsAuthor.read_metrics demoStateBound none).1 =
      .error (.attributeError "NoneType object has no attribute exec_request") :=
  ⟨rfl, client_binding_claim.1 demoState ElsAuthor.payload_type rfl,
   fun m => client_binding_claim.2.1 demoState ElsAuthor.payload_type demoClientDocs
     (some demoClientDocs) (Or.inl rfl) m,
   client_binding_claim.2.2.1 demoStateBound⟩

/-- States with the same document cache agree on non-emptiness. -/
theorem nonEmptyDocList_congr {s t : ProfileState} (h : s.doc_list = t.doc_list) :
    nonEmptyDocList s = nonEmptyDocList t := by
  unfold nonEmptyDocList
  rw [h]

/-- The generic read never touches the document cache. -/
theorem read_doc_list (s : ProfileState) (pt : String) (els : Option Client) :
    (ElsEntity.read s pt els).2.1.doc_list = s.doc_list := by
  cases els <;> simp only [ElsEntity.read] <;> (repeat' split) <;> rfl

/-- read_metrics never touches the document cache, whatever happens. -/
theorem read_metrics_doc_list (s : ProfileState) (els : Option Client) :
    (ElsAuthor.read_metrics s els).2.1.doc_list = s.doc_list := by
  cases els with
  | none => rfl
  | some c =>
    simp only [ElsAuthor.read_metrics]
    repeat' split
    all_goals rfl

/-- write_docs never touches the document cache. -/
theorem write_docs_doc_list (s : ProfileState) :
    (ElsProfile.write_docs s).2.doc_list = s.doc_list := by
  simp only [ElsProfile.write_docs]
  repeat' split
  all_goals rfl

/-- Operations other than read_docs preserve the document cache. -/
theorem stepOp_doc_list (s : ProfileState) (op : ProfileOp)
    (hop : op.isReadDocs = false) : (stepOp s op).2.doc_list = s.doc_list := by
  cases op with
  | opRead pt c => exact read_doc_list s pt c
  | opReadDocs pt c => simp [ProfileOp.isReadDocs] at hop
  | opReadMetrics c => exact read_metrics_doc_list s c
  | opWriteDocs => exact write_docs_doc_list s

/-- write_docs returns True only on a truthy cached document value. -/
theorem write_docs_ok_truthy (s : ProfileState)
    (h : (ElsProfile.write_docs s).1 = .ok true) :
    ∃ dl, s.doc_list = some dl ∧ dl.truthy = true := by
  cases hdl : s.doc_list with
  | none => simp [ElsProfile.write_docs, hdl] at h
  | some dl =>
    by_cases ht : dl.truthy
    · exact ⟨dl, rfl, ht⟩
    · simp [ElsProfile.write_docs, hdl, ht] at h

/-- A read_docs step that leaves a non-empty document list either found
one already cached or returned True. -/
theorem read_docs_nonempty (s : ProfileState) (pt : String) (els : Option Client)
    (h : nonEmptyDocList (stepOp s (.opReadDocs pt els)).2 = true) :
    nonEmptyDocList s = true ∨ isOkTrue (stepOp s (.opReadDocs pt els)).1 = true := by
  have hbind : ∀ s1 : ProfileState,
      nonEmptyDocList (ElsProfile.read_docs s1 pt none).2.1 = true →
      nonEmptyDocList s1 = true ∨ isOkTrue (ElsProfile.read_docs s1 pt none).1 = true := by
    intro s1 h1
    cases hc : s1.client with
    | none =>
      left
      simpa [ElsProfile.read_docs, hc] using h1
    | some c =>
      cases hr : c (searchUrl s1.uri) with
      | error u =>
        cases u
        left
        simpa [ElsProfile.read_docs, hc, hr] using h1
      | ok resp =>
        cases h2 : pyDictGet resp "search-results" (Json.obj []) with
        | error e =>
          left
          simpa [ElsProfile.read_docs, hc, hr, h2] using h1
        | ok sr =>
          cases h3 : pyDictGet sr "entry" (Json.arr []) with
          | error e =>
            left
            simpa [ElsProfile.read_docs, hc, hr, h2, h3] using h1
          | ok entry =>
            cases entry with
            | arr xs =>
              cases xs with
              | nil =>
                simp [ElsProfile.read_docs, hc, hr, h2, h3, pyLen,
                  nonEmptyDocList] at h1
              | cons d ds =>
                right
                simp [ElsProfile.read_docs, hc, hr, h2, h3, pyLen, isOkTrue]
            | null =>
              simp [ElsProfile.read_docs, hc, hr, h2, h3, pyLen,
                nonEmptyDocList] at h1
            | bool b =>
              simp [ElsProfile.read_docs, hc, hr, h2, h3, pyLen,
                nonEmptyDocList] at h1
            | num n =>
              simp [ElsProfile.read_docs, hc, hr, h2, h3, pyLen,
                nonEmptyDocList] at h1
            | str t =>
              simp [ElsProfile.read_docs, hc, hr, h2, h3, pyLen,
                nonEmptyDocList] at h1
            | obj kvs =>
              simp [ElsProfile.read_docs, hc, hr, h2, h3, pyLen,
                nonEmptyDocList] at h1
  cases els with
  | none => exact hbind s h
  | some c => exact hbind { s with client := some c } h

/-- Over any operation sequence, a document list that becomes a
non-empty list testifies to a read_docs step that returned True. -/
theorem doc_list_trace (ops : List ProfileOp) : ∀ s0 : ProfileState,
    nonEmptyDocList s0 = false → nonEmptyDocList (runOps s0 ops) = true →
    hasOkReadDocs s0 ops = true := by
  induction ops with
  | nil =>
    intro s0 h1 h2
    rw [runOps] at h2
    rw [h1] at h2
    cases h2
  | cons op ops ih =>
    intro s0 h1 h2
    rw [runOps] at h2
    by_cases hmid : nonEmptyDocList (stepOp s0 op).2 = true
    · cases hop : op.isReadDocs with
      | false =>
        exfalso
        rw [nonEmptyDocList_congr (stepOp_doc_list s0 op hop), h1] at hmid
        cases hmid
      | true =>
        cases op with
        | opReadDocs pt els =>
          rcases read_docs_nonempty s0 pt els hmid with hpre | hok
          · rw [h1] at hpre; cases hpre
          · simp only [hasOkReadDocs, Bool.or_eq_true]
            exact Or.inl hok
        | opRead pt c => simp [ProfileOp.isReadDocs] at hop
        | opReadMetrics c => simp [ProfileOp.isReadDocs] at hop
        | opWriteDocs => simp [ProfileOp.isReadDocs] at hop
    · have hmf : nonEmptyDocList (stepOp s0 op).2 = false := by
        cases hx : nonEmptyDocList (stepOp s0 op).2 with
        | false => rfl
        | true => exact absurd hx hmid
      simp only [hasOkReadDocs, Bool.or_eq_true]
      exact Or.inr (ih (stepOp s0 op).2 hmf h2)

/-- C10 counterexample: a read_docs that raises (entry is a bare number,
so len raises a TypeError that escapes) is not a successful read_docs,
yet it overwrites doc_list: the claim that only successful read_docs
calls change doc_list fails. -/
theorem doc_list_failed_read_docs_counterexample :
    { demoState with client := some demoClientBadEntry }.doc_list = none ∧
    (ElsProfile.read_docs { demoState with client := some demoClientBadEntry }
        ElsAuthor.payload_type none).1 = .error (.typeError "object has no len") ∧
    (ElsProfile.read_docs { demoState with client := some demoClientBadEntry }
        ElsAuthor.payload_type none).2.1.doc_list = some (.num 5) :=
  ⟨rfl, rfl, rfl⟩

/-- C10 amended: construction leaves doc_list unset; no operation other
than a read_docs changes doc_list (a read_docs that raises mid-way can
still overwrite it); doc_list is a non-empty list only after some
read_docs call in the sequence has returned True; and write_docs
returns True only when doc_list is truthy. -/
theorem doc_list_lifecycle :
    (∀ uri idj st, ElsAuthor.init uri idj = .ok st → st.doc_list = none) ∧
    (∀ uri idj st, ElsAffil.init uri idj = .ok st → st.doc_list = none) ∧
    (∀ s op, op.isReadDocs = false → (stepOp s op).2.doc_list = s.doc_list) ∧
    (∀ s, (ElsProfile.write_docs s).1 = .ok true →
      ∃ dl, s.doc_list = some dl ∧ dl.truthy = true) ∧
    (∀ ops s0, nonEmptyDocList s0 = false → nonEmptyDocList (runOps s0 ops) = true →
      hasOkReadDocs s0 ops = true) := by
  refine ⟨?_, ?_, stepOp_doc_list, write_docs_ok_truthy, fun ops s0 => doc_list_trace ops s0⟩
  · intro uri idj st h
    simp only [ElsAuthor.init] at h
    split at h
    · have h2 := Except.ok.inj h
      subst h2
      rfl
    · split at h
      · have h2 := Except.ok.inj h
        subst h2
        rfl
      · split at h
        · simp at h
        · simp at h
  · intro uri idj st h
    simp only [ElsAffil.init] at h
    split at h
    · have h2 := Except.ok.inj h
      subst h2
      rfl
    · split at h
      · have h2 := Except.ok.inj h
        subst h2
        rfl
      · split at h
        · simp at h
        · simp at h

/-- Witness for the amended C10: from a fresh state, one successful
read_docs yields a non-empty list and is found by the trace search. -/
theorem doc_list_lifecycle_witness :
    nonEmptyDocList demoState = false ∧
    nonEmptyDocList (runOps demoState
      [.opReadDocs ElsAuthor.payload_type (some demoClientDocs)]) = true ∧
    hasOkReadDocs demoState
      [.opReadDocs ElsAuthor.payload_type (some demoClientDocs)] = true :=
  ⟨rfl, rfl, doc_list_lifecycle.2.2.2.2
    [.opReadDocs ElsAuthor.payload_type (some demoClientDocs)] demoState rfl rfl⟩

theorem digitChar10_isDigit {n : Nat} (h : n < 10) : (digitChar10 n).isDigit = true := by
  interval_cases n <;> decide

theorem digitChar10_toNat {n : Nat} (h : n < 10) : (digitChar10 n).toNat = 48 + n := by
  interval_cases n <;> decide

theorem natChars_ne_nil (n : Nat) : natChars n ≠ [] := by
  rw [natChars]
  split <;> simp

theorem natChars_digits (n : Nat) : ∀ c ∈ natChars n, c.isDigit = true := by
  induction n using Nat.strong_induction_on with
  | _ n ih =>
    rw [natChars]
    split
    · next h =>
      intro c hc
      simp at hc
      subst hc
      exact digitChar10_isDigit h
    · next h =>
      intro c hc
      rw [List.mem_append] at hc
      rcases hc with hc | hc
      · exact ih (n / 10) (Nat.div_lt_self (by omega) (by omega)) c hc
      · simp at hc
        subst hc
        exact digitChar10_isDigit (Nat.mod_lt _ (by omega))

theorem digitsVal_append_last (xs : List Char) (c : Char) :
    digitsVal (xs ++ [c]) = 10 * digitsVal xs + (c.toNat - 48) := by
  simp [digitsVal, List.foldl_append]

theorem digitsVal_natChars (n : Nat) : digitsVal (natChars n) = n := by
  induction n using Nat.strong_induction_on with
  | _ n ih =>
    rw [natChars]
    split
    · next h =>
      simp [digitsVal, digitChar10_toNat h]
    · next h =>
      rw [digitsVal_append_last, ih (n / 10) (Nat.div_lt_self (by omega) (by omega)),
        digitChar10_toNat (Nat.mod_lt _ (by omega))]
      omega

theorem takeDigits_exact {ds rest : List Char} (hds : ∀ c ∈ ds, c.isDigit = true)
    (hrest : headNotDigit rest) : takeDigits (ds ++ rest) = (ds, rest) := by
  induction ds with
  | nil =>
    cases rest with
    | nil => rfl
    | cons c r =>
      simp only [headNotDigit] at hrest
      simp [takeDigits, hrest]
  | cons d ds ih =>
    have hd : d.isDigit = true := hds d (by simp)
    have htail : ∀ c ∈ ds, c.isDigit = true := fun c hc => hds c (by simp [hc])
    simp [takeDigits, hd, ih htail]

theorem natChars_head (n : Nat) :
    ∃ c cs, natChars n = c :: cs ∧ c.isDigit = true := by
  cases hn : natChars n with
  | nil => exact absurd hn (natChars_ne_nil n)
  | cons c cs =>
    exact ⟨c, cs, rfl, natChars_digits n c (by rw [hn]; simp)⟩

theorem isDigit_not_special {c : Char} (h : c.isDigit = true) :
    c ≠ '"' ∧ c ≠ '[' ∧ c ≠ '\x7b' ∧ c ≠ 't' ∧ c ≠ 'f' ∧ c ≠ 'n' ∧ c ≠ '-' ∧
    isWsChar c = false ∧ c ≠ ']' ∧ c ≠ ',' ∧ c ≠ '\x7d' := by
  refine ⟨?_, ?_, ?_, ?_, ?_, ?_, ?_, ?_, ?_, ?_, ?_⟩ <;>
    first
    | (intro hc; rw [hc] at h; exact absurd h (by decide))
    | (cases hw : isWsChar c
       · rfl
       · exfalso
         have hc := hw
         simp only [isWsChar, Bool.or_eq_true, beq_iff_eq] at hc
         rcases hc with ((hc | hc) | hc) | hc <;> rw [hc] at h <;> exact absurd h (by decide))

theorem skipWs_not_ws {c : Char} (h : isWsChar c = false) (l : List Char) :
    skipWs (c :: l) = c :: l := by
  simp [skipWs, h]

theorem skipWs_ws {c : Char} (h : isWsChar c = true) (l : List Char) :
    skipWs (c :: l) = skipWs l := by
  simp [skipWs, h]

theorem pValue_ws {c : Char} (h : isWsChar c = true) (fuel : Nat) (X : List Char) :
    pValue fuel (c :: X) = pValue fuel X := by
  cases fuel with
  | zero => rfl
  | succ f =>
    simp only [pValue]
    rw [skipWs_ws h]

theorem escChar1_len_pos (c : Char) : 1 ≤ (escChar1 c).length := by
  unfold escChar1
  split_ifs <;> simp

theorem escL_cons (c : Char) (l : List Char) : escL (c :: l) = escChar1 c ++ escL l := rfl

theorem escL_len (l : List Char) : l.length ≤ (escL l).length := by
  induction l with
  | nil => simp [escL]
  | cons c l ih =>
    rw [escL_cons]
    simp only [List.length_append, List.length_cons]
    have := escChar1_len_pos c
    omega

theorem hexv_hexDigitChar {m : Nat} (h : m < 16) : hexv (hexDigitChar m) = some m := by
  interval_cases m <;> decide

theorem pStr_round (l : List Char) : ∀ (fuel : Nat) (rest : List Char),
    l.length + 1 ≤ fuel → pStr fuel (escL l ++ '"' :: rest) = some (l, rest) := by
  induction l with
  | nil =>
    intro fuel rest h
    cases fuel with
    | zero => omega
    | succ f => simp [escL, pStr]
  | cons c l ih =>
    intro fuel rest h
    cases fuel with
    | zero => simp at h
    | succ f =>
      rw [escL_cons]
      by_cases h1 : c = '"'
      · subst h1
        simp [escChar1, pStr, escDecode, ih f rest (by simp at h; omega)]
      · by_cases h2 : c = '\\'
        · subst h2
          simp [escChar1, pStr, escDecode, ih f rest (by simp at h; omega)]
        · by_cases h3 : c.toNat < 32
          · simp only [escChar1, if_neg h1, if_neg h2, if_pos h3]
            have hdiv : c.toNat / 16 < 16 := by omega
            have hmod : c.toNat % 16 < 16 := Nat.mod_lt _ (by omega)
            have h0 : hexv '0' = some 0 := by decide
            have hv : hexVal4 '0' '0' (hexDigitChar (c.toNat / 16))
                (hexDigitChar (c.toNat % 16)) = some c.toNat := by
              simp only [hexVal4, h0, hexv_hexDigitChar hdiv, hexv_hexDigitChar hmod,
                Option.some.injEq]
              omega
            simp [pStr, hv, Char.ofNat_toNat, ih f rest (by simp at h; omega)]
          · simp only [escChar1, if_neg h1, if_neg h2, if_neg h3, List.singleton_append]
            simp [pStr, h1, h2, ih f rest (by simp at h; omega)]

theorem dumpsL_head (v : Json) :
    ∃ c cs, dumpsL v = c :: cs ∧ isWsChar c = false ∧ c ≠ ']' := by
  cases v with
  | null => exact ⟨'n', ['u', 'l', 'l'], by simp [dumpsL], by decide, by decide⟩
  | bool b =>
    cases b with
    | true => exact ⟨'t', ['r', 'u', 'e'], by simp [dumpsL], by decide, by decide⟩
    | false => exact ⟨'f', ['a', 'l', 's', 'e'], by simp [dumpsL], by decide, by decide⟩
  | num n =>
    by_cases hn : n < 0
    · exact ⟨'-', natChars n.natAbs, by simp [dumpsL, intChars, hn], by decide, by decide⟩
    · obtain ⟨c, cs, hc, hd⟩ := natChars_head n.toNat
      have hs := isDigit_not_special hd
      exact ⟨c, cs, by simp [dumpsL, intChars, hn, hc], hs.2.2.2.2.2.2.2.1,
        hs.2.2.2.2.2.2.2.2.1⟩
  | str s =>
    exact ⟨'"', escL s.data ++ ['"'], by simp [dumpsL], by decide, by decide⟩
  | arr xs =>
    cases xs with
    | nil => exact ⟨'[', [']'], by simp [dumpsL], by decide, by decide⟩
    | cons x xs =>
      exact ⟨'[', dumpsL x ++ arrTailD xs ++ [']'], by simp [dumpsL], by decide, by decide⟩
  | obj kvs =>
    cases kvs with
    | nil => exact ⟨'\x7b', ['\x7d'], by simp [dumpsL], by decide, by decide⟩
    | cons kv kvs =>
      obtain ⟨k, v⟩ := kv
      exact ⟨'\x7b', kvD k v ++ objTailD kvs ++ ['\x7d'], by simp [dumpsL],
        by decide, by decide⟩

theorem jsize_pos (v : Json) : 1 ≤ jsize v := by
  cases v <;> simp [jsize]

theorem string_mk_data (s : String) : String.mk s.data = s := rfl

theorem arrTailD_hnd (xs : List Json) (rest : List Char) :
    headNotDigit (arrTailD xs ++ ']' :: rest) := by
  cases xs with
  | nil => simp [arrTailD, headNotDigit]
  | cons x xs =>
    have heq : arrTailD (x :: xs) = ',' :: ' ' :: dumpsL x ++ arrTailD xs := by
      simp [arrTailD]
    rw [heq]
    simp [headNotDigit]

theorem objTailD_hnd (kvs : List (String × Json)) (rest : List Char) :
    headNotDigit (objTailD kvs ++ '\x7d' :: rest) := by
  cases kvs with
  | nil => simp [objTailD, headNotDigit]
  | cons kv kvs =>
    obtain ⟨k, v⟩ := kv
    have heq : objTailD ((k, v) :: kvs) = ',' :: ' ' :: kvD k v ++ objTailD kvs := by
      simp [objTailD]
    rw [heq]
    simp [headNotDigit]

/-- The parser recovers every serialized value and leaves the rest of
the input untouched, given enough fuel; likewise for the rendered array
and object tails. -/
theorem parse_round : ∀ fuel : Nat,
    (∀ (v : Json) (rest : List Char), jsize v ≤ fuel → headNotDigit rest →
      pValue fuel (dumpsL v ++ rest) = some (v, rest)) ∧
    (∀ (xs : List Json) (rest : List Char), jsizeL xs + 1 ≤ fuel →
      pArrRest fuel (arrTailD xs ++ ']' :: rest) = some (xs, rest)) ∧
    (∀ (kvs : List (String × Json)) (rest : List Char), jsizeO kvs + 1 ≤ fuel →
      pObjRest fuel (objTailD kvs ++ '\x7d' :: rest) = some (kvs, rest)) := by
  intro fuel
  induction fuel with
  | zero =>
    refine ⟨?_, ?_, ?_⟩
    · intro v rest hsz _
      have := jsize_pos v
      omega
    · intro xs rest hsz
      omega
    · intro kvs rest hsz
      omega
  | succ fuel ih =>
    obtain ⟨ihV, ihA, ihO⟩ := ih
    refine ⟨?_, ?_, ?_⟩
    · intro v rest hsz hnd
      cases v with
      | null =>
        have heq : dumpsL .null = ['n', 'u', 'l', 'l'] := by simp [dumpsL]
        rw [heq]
        simp [pValue, skipWs, isWsChar, dropLit]
      | bool b =>
        cases b with
        | true =>
          have heq : dumpsL (.bool true) = ['t', 'r', 'u', 'e'] := by simp [dumpsL]
          rw [heq]
          simp [pValue, skipWs, isWsChar, dropLit]
        | false =>
          have heq : dumpsL (.bool false) = ['f', 'a', 'l', 's', 'e'] := by simp [dumpsL]
          rw [heq]
          simp [pValue, skipWs, isWsChar, dropLit]
      | num n =>
        by_cases hn : n < 0
        · have heq : dumpsL (.num n) = '-' :: natChars n.natAbs := by
            simp [dumpsL, intChars, hn]
          rw [heq]
          have htd : takeDigits (natChars n.natAbs ++ rest) = (natChars n.natAbs, rest) :=
            takeDigits_exact (natChars_digits _) hnd
          have hne : natChars n.natAbs ≠ [] := natChars_ne_nil _
          have hval : -((digitsVal (natChars n.natAbs) : Nat) : Int) = n := by
            rw [digitsVal_natChars]
            omega
          simp [pValue, skipWs, isWsChar, htd, hne, hval]
        · obtain ⟨c, cs, hc, hd⟩ := natChars_head n.toNat
          have hs := isDigit_not_special hd
          have htd : takeDigits (natChars n.toNat ++ rest) = (natChars n.toNat, rest) :=
            takeDigits_exact (natChars_digits _) hnd
          rw [hc] at htd
          have hval : ((digitsVal (c :: cs) : Nat) : Int) = n := by
            rw [← hc, digitsVal_natChars]
            omega
          have heq : dumpsL (.num n) = natChars n.toNat := by simp [dumpsL, intChars, hn]
          rw [heq, hc]
          simp only [List.cons_append] at htd ⊢
          simp [pValue, skipWs, hs.2.2.2.2.2.2.2.1, hs.1, hs.2.1, hs.2.2.1, hs.2.2.2.1,
            hs.2.2.2.2.1, hs.2.2.2.2.2.1, hs.2.2.2.2.2.2.1, hd, htd, hval]
      | str s =>
        have heq : dumpsL (.str s) = '"' :: (escL s.data ++ ['"']) := by simp [dumpsL]
        rw [heq]
        have hlen : s.data.length + 1 ≤ (escL s.data ++ '"' :: rest).length := by
          simp only [List.length_append, List.length_cons]
          have := escL_len s.data
          omega
        have hps := pStr_round s.data (escL s.data ++ '"' :: rest).length rest hlen
        simp at hps
        simp [pValue, skipWs, isWsChar, hps, string_mk_data]
      | arr xs =>
        cases xs with
        | nil =>
          have heq : dumpsL (.arr []) = ['[', ']'] := by simp [dumpsL]
          rw [heq]
          simp [pValue, skipWs, isWsChar]
        | cons x xs =>
          have hszx : jsize (.arr (x :: xs)) = 2 + jsize x + jsizeL xs := by
            simp [jsize, jsizeL]
            omega
          have hx : jsize x ≤ fuel := by omega
          have hxs : jsizeL xs + 1 ≤ fuel := by
            have := jsize_pos x
            omega
          have hV := ihV x (arrTailD xs ++ ']' :: rest) hx (arrTailD_hnd xs rest)
          have hA := ihA xs rest hxs
          obtain ⟨c1, cs1, hc1, hw1, hne1⟩ := dumpsL_head x
          have heq : dumpsL (.arr (x :: xs)) =
              '[' :: (dumpsL x ++ arrTailD xs ++ [']']) := by simp [dumpsL]
          rw [heq, hc1]
          rw [hc1] at hV
          simp only [List.cons_append, List.append_assoc, List.singleton_append] at hV ⊢
          simp only [isWsChar, Bool.or_eq_false_iff, beq_eq_false_iff_ne, ne_eq] at hw1
          simp [pValue, skipWs, isWsChar, hw1, hne1, hV, hA]
      | obj kvs =>
        cases kvs with
        | nil =>
          have heq : dumpsL (.obj []) = ['\x7b', '\x7d'] := by simp [dumpsL]
          rw [heq]
          simp [pValue, skipWs, isWsChar]
        | cons kv kvs =>
          obtain ⟨k, v⟩ := kv
          have hszx : jsize (.obj ((k, v) :: kvs)) = 2 + jsize v + jsizeO kvs := by
            simp [jsize, jsizeO]
            omega
          have hv : jsize v ≤ fuel := by omega
          have hkvs : jsizeO kvs + 1 ≤ fuel := by
            have := jsize_pos v
            omega
          have hV := ihV v (objTailD kvs ++ '\x7d' :: rest) hv (objTailD_hnd kvs rest)
          have hO := ihO kvs rest hkvs
          have heq : dumpsL (.obj ((k, v) :: kvs)) =
              '\x7b' :: (kvD k v ++ objTailD kvs ++ ['\x7d']) := by simp [dumpsL]
          have heqkv : kvD k v = '"' :: escL k.data ++ '"' :: ':' :: ' ' :: dumpsL v := by
            simp [kvD]
          rw [heq, heqkv]
          have hlen : k.data.length + 1 ≤
              (escL k.data ++ '"' :: ':' :: ' ' :: dumpsL v ++
                (objTailD kvs ++ '\x7d' :: rest)).length := by
            simp only [List.length_append, List.length_cons]
            have := escL_len k.data
            omega
          have hps := pStr_round k.data _ (':' :: ' ' :: dumpsL v ++
            (objTailD kvs ++ '\x7d' :: rest)) hlen
          have hVw := pValue_ws (by decide : isWsChar ' ' = true) fuel
            (dumpsL v ++ (objTailD kvs ++ '\x7d' :: rest))
          simp only [List.cons_append, List.append_assoc, List.singleton_append] at hV ⊢
          simp at hps
          simp [pValue, skipWs, isWsChar, hps, hVw, hV, hO, string_mk_data]
    · intro xs rest hsz
      cases xs with
      | nil =>
        have heq : arrTailD ([] : List Json) = [] := by simp [arrTailD]
        rw [heq]
        simp [pArrRest, skipWs, isWsChar]
      | cons y ys =>
        have hy : jsize y ≤ fuel := by
          have h2 : jsizeL (y :: ys) = 1 + jsize y + jsizeL ys := by simp [jsizeL]
          omega
        have hys : jsizeL ys + 1 ≤ fuel := by
          have h2 : jsizeL (y :: ys) = 1 + jsize y + jsizeL ys := by simp [jsizeL]
          have := jsize_pos y
          omega
        have hV := ihV y (arrTailD ys ++ ']' :: rest) hy (arrTailD_hnd ys rest)
        have hA := ihA ys rest hys
        have heq : arrTailD (y :: ys) = ',' :: ' ' :: dumpsL y ++ arrTailD ys := by
          simp [arrTailD]
        rw [heq]
        have hVw := pValue_ws (by decide : isWsChar ' ' = true) fuel
          (dumpsL y ++ (arrTailD ys ++ ']' :: rest))
        simp only [List.cons_append, List.append_assoc] at hV ⊢
        simp [pArrRest, skipWs, isWsChar, hVw, hV, hA]
    · intro kvs rest hsz
      cases kvs with
      | nil =>
        have heq : objTailD ([] : List (String × Json)) = [] := by simp [objTailD]
        rw [heq]
        simp [pObjRest, skipWs, isWsChar]
      | cons kv kvs =>
        obtain ⟨k, v⟩ := kv
        have hv : jsize v ≤ fuel := by
          have h2 : jsizeO ((k, v) :: kvs) = 1 + jsize v + jsizeO kvs := by simp [jsizeO]
          omega
        have hkvs : jsizeO kvs + 1 ≤ fuel := by
          have h2 : jsizeO ((k, v) :: kvs) = 1 + jsize v + jsizeO kvs := by simp [jsizeO]
          have := jsize_pos v
          omega
        have hV := ihV v (objTailD kvs ++ '\x7d' :: rest) hv (objTailD_hnd kvs rest)
        have hO := ihO kvs rest hkvs
        have heq : objTailD ((k, v) :: kvs) = ',' :: ' ' :: kvD k v ++ objTailD kvs := by
          simp [objTailD]
        have heqkv : kvD k v = '"' :: escL k.data ++ '"' :: ':' :: ' ' :: dumpsL v := by
          simp [kvD]
        rw [heq, heqkv]
        have hlen : k.data.length + 1 ≤
            (escL k.data ++ '"' :: ':' :: ' ' :: dumpsL v ++
              (objTailD kvs ++ '\x7d' :: rest)).length := by
          simp only [List.length_append, List.length_cons]
          have := escL_len k.data
          omega
        have hps := pStr_round k.data _ (':' :: ' ' :: dumpsL v ++
          (objTailD kvs ++ '\x7d' :: rest)) hlen
        have hVw := pValue_ws (by decide : isWsChar ' ' = true) fuel
          (dumpsL v ++ (objTailD kvs ++ '\x7d' :: rest))
        simp only [List.cons_append, List.append_assoc, List.singleton_append] at hV ⊢
        simp at hps
        simp [pObjRest, skipWs, isWsChar, hps, hVw, hV, hO, string_mk_data]

theorem size_le_len : ∀ n : Nat,
    (∀ v : Json, jsize v ≤ n → jsize v ≤ (dumpsL v).length) ∧
    (∀ xs : List Json, jsizeL xs ≤ n → jsizeL xs ≤ (arrTailD xs).length) ∧
    (∀ kvs : List (String × Json), jsizeO kvs ≤ n → jsizeO kvs ≤ (objTailD kvs).length) := by
  intro n
  induction n with
  | zero =>
    refine ⟨?_, ?_, ?_⟩
    · intro v h
      have := jsize_pos v
      omega
    · intro xs h
      omega
    · intro kvs h
      omega
  | succ n ih =>
    obtain ⟨ih1, ih2, ih3⟩ := ih
    refine ⟨?_, ?_, ?_⟩
    · intro v hsz
      cases v with
      | null => simp [jsize, dumpsL]
      | bool b => cases b <;> simp [jsize, dumpsL]
      | num m =>
        simp only [jsize, dumpsL, intChars]
        split
        · have := List.length_pos.mpr (natChars_ne_nil m.natAbs)
          simp only [List.length_cons]
          omega
        · have := List.length_pos.mpr (natChars_ne_nil m.toNat)
          omega
      | str t => simp [jsize, dumpsL]
      | arr xs =>
        cases xs with
        | nil => simp [jsize, jsizeL, dumpsL]
        | cons x xs =>
          have hszx : jsize (Json.arr (x :: xs)) = 2 + jsize x + jsizeL xs := by
            simp [jsize, jsizeL]
            omega
          have h1 := ih1 x (by omega)
          have h2 := ih2 xs (by omega)
          have hlen : (dumpsL (Json.arr (x :: xs))).length =
              2 + (dumpsL x).length + (arrTailD xs).length := by
            have heq : dumpsL (.arr (x :: xs)) =
                '[' :: (dumpsL x ++ arrTailD xs ++ [']']) := by simp [dumpsL]
            rw [heq]
            simp
            omega
          omega
      | obj kvs =>
        cases kvs with
        | nil => simp [jsize, jsizeO, dumpsL]
        | cons kv kvs =>
          obtain ⟨k, v⟩ := kv
          have hszx : jsize (Json.obj ((k, v) :: kvs)) = 2 + jsize v + jsizeO kvs := by
            simp [jsize, jsizeO]
            omega
          have h1 := ih1 v (by omega)
          have h3 := ih3 kvs (by omega)
          have hlen : 2 + (dumpsL v).length + (objTailD kvs).length ≤
              (dumpsL (Json.obj ((k, v) :: kvs))).length := by
            have heq : dumpsL (.obj ((k, v) :: kvs)) =
                '\x7b' :: (kvD k v ++ objTailD kvs ++ ['\x7d']) := by simp [dumpsL]
            have heqkv : kvD k v = '"' :: escL k.data ++ '"' :: ':' :: ' ' :: dumpsL v := by
              simp [kvD]
            rw [heq, heqkv]
            simp
            omega
          omega
    · intro xs hsz
      cases xs with
      | nil => simp [jsizeL]
      | cons y ys =>
        have hszx : jsizeL (y :: ys) = 1 + jsize y + jsizeL ys := by simp [jsizeL]
        have h1 := ih1 y (by omega)
        have h2 := ih2 ys (by omega)
        have heq : arrTailD (y :: ys) = ',' :: ' ' :: dumpsL y ++ arrTailD ys := by
          simp [arrTailD]
        rw [heq]
        simp
        omega
    · intro kvs hsz
      cases kvs with
      | nil => simp [jsizeO]
      | cons kv kvs =>
        obtain ⟨k, v⟩ := kv
        have hszx : jsizeO ((k, v) :: kvs) = 1 + jsize v + jsizeO kvs := by simp [jsizeO]
        have h1 := ih1 v (by omega)
        have h3 := ih3 kvs (by omega)
        have heq : objTailD ((k, v) :: kvs) = ',' :: ' ' :: kvD k v ++ objTailD kvs := by
          simp [objTailD]
        have heqkv : kvD k v = '"' :: escL k.data ++ '"' :: ':' :: ' ' :: dumpsL v := by
          simp [kvD]
        rw [heq, heqkv]
        simp
        omega

theorem jsizeL_le_wtail (xs : List Json) : jsizeL xs ≤ (wtail xs).length := by
  induction xs with
  | nil => simp [jsizeL, wtail]
  | cons y ys ih =>
    have h1 := (size_le_len (jsize y)).1 y le_rfl
    have hszx : jsizeL (y :: ys) = 1 + jsize y + jsizeL ys := by simp [jsizeL]
    simp only [wtail, List.length_cons, List.length_append]
    omega

theorem wtail_hnd (xs : List Json) (rest : List Char) :
    headNotDigit (wtail xs ++ ']' :: rest) := by
  cases xs with
  | nil => simp [wtail, headNotDigit]
  | cons x xs => simp [wtail, headNotDigit]

theorem wtail_parse : ∀ (xs : List Json) (fuel : Nat) (rest : List Char),
    jsizeL xs + 1 ≤ fuel → pArrRest fuel (wtail xs ++ ']' :: rest) = some (xs, rest) := by
  intro xs
  induction xs with
  | nil =>
    intro fuel rest h
    cases fuel with
    | zero => omega
    | succ f => simp [wtail, pArrRest, skipWs, isWsChar]
  | cons y ys ih =>
    intro fuel rest h
    cases fuel with
    | zero => omega
    | succ f =>
      have hszx : jsizeL (y :: ys) = 1 + jsize y + jsizeL ys := by simp [jsizeL]
      have hV := (parse_round f).1 y (wtail ys ++ ']' :: rest) (by omega) (wtail_hnd ys rest)
      have hA := ih f rest (by have := jsize_pos y; omega)
      simp only [wtail, List.cons_append, List.append_assoc] at hV ⊢
      simp [pArrRest, skipWs, isWsChar, hV, hA]

/-- The file content write_docs produces parses back to exactly the
document list it was produced from. -/
theorem docsContent_parse (d : Json) (ds : List Json) :
    jsonParse (docsContent d ds) = some (.arr (d :: ds)) := by
  have hd : jsize d ≤ (dumpsL d).length := (size_le_len (jsize d)).1 d le_rfl
  have hds : jsizeL ds ≤ (wtail ds).length := jsizeL_le_wtail ds
  have hdata : (docsContent d ds).data = '[' :: (dumpsL d ++ wtail ds ++ [']']) := rfl
  obtain ⟨c1, cs1, hc1, hw1, hne1⟩ := dumpsL_head d
  have hlen : (docsContent d ds).data.length =
      2 + (dumpsL d).length + (wtail ds).length := by
    rw [hdata]
    simp
    omega
  have hfuel : 2 + jsize d + jsizeL ds ≤ (docsContent d ds).data.length := by omega
  generalize hF : (docsContent d ds).data.length + 1 = F
  obtain ⟨f, rfl⟩ : ∃ f, F = f + 1 := ⟨F - 1, by omega⟩
  have hV := (parse_round f).1 d (wtail ds ++ ']' :: []) (by omega) (wtail_hnd ds [])
  have hA := wtail_parse ds f [] (by have := jsize_pos d; omega)
  rw [hc1] at hV
  unfold jsonParse
  rw [hF, hdata, hc1]
  simp only [List.cons_append, List.append_assoc, List.singleton_append,
    List.append_nil] at hV ⊢
  simp only [isWsChar, Bool.or_eq_false_iff, beq_eq_false_iff_ne, ne_eq] at hw1
  simp [pValue, skipWs, isWsChar, hw1, hne1, hV, hA]

/-- C2: write_docs with an empty or unset doc_list returns False and
changes nothing; with a non-empty cached document list it returns True
and writes the dump file under the url-encoded name, whose content,
parsed as JSON, is exactly the cached list in the same order; no other
file changes. -/
theorem write_docs_claim (s : ProfileState) :
    ((s.doc_list = none ∨ s.doc_list = some (.arr [])) →
      ElsProfile.write_docs s = (.ok false, s)) ∧
    (∀ d ds, s.doc_list = some (.arr (d :: ds)) →
      (ElsProfile.write_docs s).1 = .ok true ∧
      fsLookup (ElsProfile.write_docs s).2.fs (docsFileName s.uri) =
        some (docsContent d ds) ∧
      jsonParse (docsContent d ds) = some (.arr (d :: ds)) ∧
      (∀ other, other ≠ docsFileName s.uri →
        fsLookup (ElsProfile.write_docs s).2.fs other = fsLookup s.fs other)) := by
  constructor
  · rintro (h | h) <;> simp [ElsProfile.write_docs, h, Json.truthy]
  · intro d ds h
    have htr : (Json.arr (d :: ds)).truthy = true := by simp [Json.truthy]
    refine ⟨?_, ?_, docsContent_parse d ds, ?_⟩
    · simp [ElsProfile.write_docs, h, htr]
    · simp [ElsProfile.write_docs, h, htr, fsWrite, fsLookup]
    · intro other hother
      have hne : ¬(docsFileName s.uri = other) := fun hh => hother hh.symm
      simp [ElsProfile.write_docs, h, htr, fsWrite, fsLookup, hne]

/-- Witness for C2: the empty cache is rejected untouched; the cached
two-document list of the demo state is written and parses back. -/
theorem write_docs_claim_witness :
    (ElsProfile.write_docs { demoState with doc_list := some (.arr []) } =
      (.ok false, { demoState with doc_list := some (.arr []) })) ∧
    ((ElsProfile.write_docs demoStateDocs).1 = .ok true ∧
      fsLookup (ElsProfile.write_docs demoStateDocs).2.fs (docsFileName demoStateDocs.uri) =
        some (docsContent (.obj [("x", .num 2)]) [.str "b"]) ∧
      jsonParse (docsContent (.obj [("x", .num 2)]) [.str "b"]) =
        some (.arr [.obj [("x", .num 2)], .str "b"]) ∧
      (∀ other, other ≠ docsFileName demoStateDocs.uri →
        fsLookup (ElsProfile.write_docs demoStateDocs).2.fs other =
          fsLookup demoStateDocs.fs other)) :=
  ⟨(write_docs_claim { demoState with doc_list := some (.arr []) }).1 (Or.inr rfl),
   (write_docs_claim demoStateDocs).2 (.obj [("x", .num 2)]) [.str "b"] rfl⟩
